import Mathlib

/-!
Verification of the head-pose tracking core of the `born` repository.

The JavaScript sources under `src/tracking/` are shallowly embedded over
exact rational arithmetic: every JavaScript number is modelled by `ℚ`
(only finite, non-NaN values arise in the verified properties), arrays by
`List`, `null`/`undefined` by `Option`, and class instances by explicit
state records threaded through the operations.  JavaScript library
functions with no rational counterpart (`Math.hypot`, `Math.exp`,
`Math.random`, and the trigonometry buried inside the numerical PnP
solver) are threaded through as explicit function parameters, so each
theorem quantifies over every possible behaviour of those functions;
where a theorem needs a fact about such a function (for example that
`Math.hypot` is nonnegative) it carries that fact as an explicit
hypothesis.
-/

namespace Born

/-- A 2D point (pixel coordinates). -/
structure Pt2 where
  x : ℚ
  y : ℚ
deriving Repr, DecidableEq

/-- A 3D vector/point (model coordinates in millimetres, translations, …). -/
structure Vec3 where
  x : ℚ
  y : ℚ
  z : ℚ
deriving Repr, DecidableEq

/-- A quaternion, field order as in `THREE.Quaternion` (x, y, z, w). -/
structure Quat where
  x : ℚ
  y : ℚ
  z : ℚ
  w : ℚ
deriving Repr, DecidableEq

/-- `CameraIntrinsics` (AdvancedPoseEstimator.js, lines 150-224): image size,
focal length and principal point.  The derived 3×3 camera matrix field of the
source is display-only data and is omitted. -/
structure CameraIntrinsics where
  width : ℚ
  height : ℚ
  focalLength : ℚ
  cx : ℚ
  cy : ℚ
deriving Repr, DecidableEq

namespace CameraIntrinsics

/-- `CameraIntrinsics.project(point3D)` (AdvancedPoseEstimator.js, lines
200-208): returns `null` when the depth `z` is `<= 0`, otherwise the pinhole
projection `(f·x/z + cx, f·y/z + cy)`. -/
def project (c : CameraIntrinsics) (p : Vec3) : Option Pt2 :=
  if p.z ≤ 0 then none
  else some ⟨c.focalLength * p.x / p.z + c.cx, c.focalLength * p.y / p.z + c.cy⟩

end CameraIntrinsics

/-- A single detector landmark as read by the calibrator and the pose
estimator: normalized image coordinates.  Rationals model finite JavaScript
numbers, so the source's `Number.isFinite` tests are identically true here. -/
structure Landmark where
  x : ℚ
  y : ℚ
deriving Repr, DecidableEq

/-! ### CameraCalibrator (CameraCalibrator.js) -/

namespace CameraCalibrator

/-- `REAL_IPD_MM`: average interpupillary distance constant (line 16). -/
def REAL_IPD_MM : ℚ := 63

/-- `EYE_INDICES.left` (line 17). -/
def leftEyeIndex : Nat := 33

/-- `EYE_INDICES.right` (line 17). -/
def rightEyeIndex : Nat := 263

/-- `CameraCalibrator.estimateFocalLength(landmarks, imageWidth)`
(CameraCalibrator.js, lines 23-56).  `hyp` models `Math.hypot`.  Note that the
source scales both the x and the y coordinate difference by `imageWidth`.
The missing-landmark guard maps to the two `Option` matches; the `try/catch`
of the source has nothing left to catch in the rational embedding. -/
def estimateFocalLength (hyp : ℚ → ℚ → ℚ) (landmarks : List Landmark)
    (imageWidth : ℚ) : Option ℚ :=
  match landmarks[leftEyeIndex]?, landmarks[rightEyeIndex]? with
  | some leftEye, some rightEye =>
    let pixelDistance := hyp ((rightEye.x - leftEye.x) * imageWidth)
      ((rightEye.y - leftEye.y) * imageWidth)
    if pixelDistance < 20 ∨ pixelDistance > 200 then none
    else
      let focalLength := pixelDistance * REAL_IPD_MM / 30
      if focalLength < 500 ∨ focalLength > 3000 then none
      else some focalLength
  | _, _ => none

/-- One entry of the calibrator's sample buffer (`addSample`, lines 61-76). -/
structure Sample where
  value : ℚ
  timestamp : ℚ
deriving Repr, DecidableEq

/-- The mutable state of a `CameraCalibrator` instance (constructor, lines
8-18).  `maxSamples` and `minSamples` are constants, kept below. -/
structure CalibState where
  samples : List Sample
  calibratedFocal : Option ℚ
  lastCalibrationTime : ℚ
deriving Repr, DecidableEq

/-- `this.maxSamples` (line 10). -/
def maxSamples : Nat := 15

/-- `this.minSamples` (line 11). -/
def minSamples : Nat := 8

/-- The constructor state of `CameraCalibrator`. -/
def initCalib : CalibState := ⟨[], none, 0⟩

/-- `addSample(focalLength)` (lines 61-76).  The source rejects falsy input
(`!focalLength`), which for a finite number means `0`; it then pushes a
timestamped sample and evicts the oldest one beyond `maxSamples`. -/
def addSample (s : CalibState) (focalLength : ℚ) (now : ℚ) : CalibState :=
  if focalLength = 0 then s
  else
    let samples := s.samples ++ [⟨focalLength, now⟩]
    let samples := if maxSamples < samples.length then samples.drop 1 else samples
    { s with samples := samples }

/-- `_calculateVariance()` (lines 123-130): population variance of the sample
values, `0` for fewer than two samples. -/
def sampleVariance (s : CalibState) : ℚ :=
  if s.samples.length < 2 then 0
  else
    let n : ℚ := s.samples.length
    let mean := (s.samples.map Sample.value).sum / n
    (s.samples.map (fun smp => (smp.value - mean) ^ 2)).sum / n

/-- `getCalibratedFocalLength()` (lines 81-118).  `expf` models `Math.exp`;
a sample of age `a` gets weight `expf (-a / 5000)`.  Returns the accepted
focal length (or `none` on any rejection) together with the state after the
call: on acceptance `calibratedFocal` and `lastCalibrationTime` are written,
on rejection the state is untouched. -/
def getCalibratedFocalLength (expf : ℚ → ℚ) (s : CalibState) (now : ℚ) :
    Option ℚ × CalibState :=
  if s.samples.length < minSamples then (none, s)
  else
    let weightedSum :=
      (s.samples.map (fun smp => smp.value * expf (-(now - smp.timestamp) / 5000))).sum
    let totalWeight :=
      (s.samples.map (fun smp => expf (-(now - smp.timestamp) / 5000))).sum
    let calibratedFocal := weightedSum / totalWeight
    if calibratedFocal < 500 ∨ calibratedFocal > 3000 then (none, s)
    else if sampleVariance s > 10000 then (none, s)
    else (some calibratedFocal,
      { s with calibratedFocal := some calibratedFocal, lastCalibrationTime := now })

/-- `reset()` (lines 147-152). -/
def resetCalib (_s : CalibState) : CalibState := ⟨[], none, 0⟩

/-- An externally visible operation on a calibrator instance. -/
inductive CalibOp where
  | add (focalLength now : ℚ)
  | getCalibrated (expf : ℚ → ℚ) (now : ℚ)
  | reset

/-- One operation applied to the calibrator state. -/
def calibStep (s : CalibState) : CalibOp → CalibState
  | .add f t => addSample s f t
  | .getCalibrated expf t => (getCalibratedFocalLength expf s t).2
  | .reset => resetCalib s

/-- A whole call sequence applied to the calibrator state. -/
def calibRun (s : CalibState) : List CalibOp → CalibState
  | [] => s
  | op :: ops => calibRun (calibStep s op) ops

end CameraCalibrator

namespace CameraCalibrator

/-- With both eye landmarks present, `estimateFocalLength` reduces to its
guard chain. -/
theorem estimateFocalLength_eq_of_eyes (hyp : ℚ → ℚ → ℚ)
    (landmarks : List Landmark) (imageWidth : ℚ) (le re : Landmark)
    (h1 : landmarks[leftEyeIndex]? = some le)
    (h2 : landmarks[rightEyeIndex]? = some re) :
    estimateFocalLength hyp landmarks imageWidth =
      (if hyp ((re.x - le.x) * imageWidth) ((re.y - le.y) * imageWidth) < 20 ∨
          hyp ((re.x - le.x) * imageWidth) ((re.y - le.y) * imageWidth) > 200
        then none
        else if hyp ((re.x - le.x) * imageWidth) ((re.y - le.y) * imageWidth) *
              REAL_IPD_MM / 30 < 500 ∨
            hyp ((re.x - le.x) * imageWidth) ((re.y - le.y) * imageWidth) *
              REAL_IPD_MM / 30 > 3000
          then none
          else some (hyp ((re.x - le.x) * imageWidth)
            ((re.y - le.y) * imageWidth) * REAL_IPD_MM / 30)) := by
  unfold estimateFocalLength
  rw [h1, h2]

/-- Claim C5: `estimateFocalLength` returns `null` whenever the computed eye
pixel distance is below 20 or above 200, returns `null` whenever the derived
focal-length candidate lies outside [500, 3000], and every non-null return
value lies in [500, 3000]. -/
theorem estimateFocalLength_rejections (hyp : ℚ → ℚ → ℚ)
    (landmarks : List Landmark) (imageWidth : ℚ) :
    (∀ f, estimateFocalLength hyp landmarks imageWidth = some f →
      500 ≤ f ∧ f ≤ 3000) ∧
    (∀ leftEye rightEye, landmarks[leftEyeIndex]? = some leftEye →
      landmarks[rightEyeIndex]? = some rightEye →
      ((hyp ((rightEye.x - leftEye.x) * imageWidth)
          ((rightEye.y - leftEye.y) * imageWidth) < 20 ∨
        200 < hyp ((rightEye.x - leftEye.x) * imageWidth)
          ((rightEye.y - leftEye.y) * imageWidth)) →
        estimateFocalLength hyp landmarks imageWidth = none) ∧
      ((hyp ((rightEye.x - leftEye.x) * imageWidth)
          ((rightEye.y - leftEye.y) * imageWidth) * REAL_IPD_MM / 30 < 500 ∨
        3000 < hyp ((rightEye.x - leftEye.x) * imageWidth)
          ((rightEye.y - leftEye.y) * imageWidth) * REAL_IPD_MM / 30) →
        estimateFocalLength hyp landmarks imageWidth = none)) := by
  constructor
  · intro f hf
    cases h1 : landmarks[leftEyeIndex]? with
    | none => unfold estimateFocalLength at hf; rw [h1] at hf; exact absurd hf (by simp)
    | some le =>
      cases h2 : landmarks[rightEyeIndex]? with
      | none => unfold estimateFocalLength at hf; rw [h1, h2] at hf; exact absurd hf (by simp)
      | some re =>
        rw [estimateFocalLength_eq_of_eyes hyp landmarks imageWidth le re h1 h2] at hf
        split_ifs at hf with hg1 hg2
        all_goals first
          | exact Option.noConfusion hf
          | (push_neg at hg2; cases hf; exact hg2)
  · intro le re h1 h2
    rw [estimateFocalLength_eq_of_eyes hyp landmarks imageWidth le re h1 h2]
    constructor
    · intro hg
      have hc : hyp ((re.x - le.x) * imageWidth) ((re.y - le.y) * imageWidth) < 20 ∨
          hyp ((re.x - le.x) * imageWidth) ((re.y - le.y) * imageWidth) > 200 := by
        rcases hg with hg | hg
        · exact Or.inl hg
        · exact Or.inr hg
      rw [if_pos hc]
    · intro hg
      split_ifs with hg1 hg2
      all_goals first
        | rfl
        | exact absurd hg (by push_neg at hg2 ⊢; exact hg2)

/-- Concrete landmark list with entries at both eye indices. -/
def wLandmarks : List Landmark := List.replicate 264 ⟨0, 0⟩

/-- Witness for C5: a constant eye-pixel-distance of 5 px (below the 20 px
floor) and of 5000 px (above the 200 px ceiling) both produce `null`. -/
theorem estimateFocalLength_rejections_witness :
    estimateFocalLength (fun _ _ => 5) wLandmarks 640 = none ∧
    estimateFocalLength (fun _ _ => 5000) wLandmarks 640 = none := by
  have h33 : wLandmarks[leftEyeIndex]? = some ⟨0, 0⟩ := by
    rw [leftEyeIndex, wLandmarks, List.getElem?_replicate]
    norm_num
  have h263 : wLandmarks[rightEyeIndex]? = some ⟨0, 0⟩ := by
    rw [rightEyeIndex, wLandmarks, List.getElem?_replicate]
    norm_num
  constructor
  · exact ((estimateFocalLength_rejections (fun _ _ => 5) wLandmarks 640).2
      ⟨0, 0⟩ ⟨0, 0⟩ h33 h263).1 (Or.inl (by norm_num))
  · exact ((estimateFocalLength_rejections (fun _ _ => 5000) wLandmarks 640).2
      ⟨0, 0⟩ ⟨0, 0⟩ h33 h263).1 (Or.inr (by norm_num))

/-- Case analysis of `getCalibratedFocalLength`: either the call rejects and
returns the state untouched, or it accepts an in-range value and stores it. -/
theorem getCalibrated_spec (expf : ℚ → ℚ) (s : CalibState) (now : ℚ) :
    getCalibratedFocalLength expf s now = (none, s) ∨
    ∃ v, getCalibratedFocalLength expf s now =
        (some v, { s with calibratedFocal := some v, lastCalibrationTime := now }) ∧
      500 ≤ v ∧ v ≤ 3000 := by
  simp only [getCalibratedFocalLength]
  split_ifs with h1 h2 h3
  · exact Or.inl rfl
  · exact Or.inl rfl
  · exact Or.inl rfl
  · push_neg at h2
    exact Or.inr ⟨_, rfl, h2.1, h2.2⟩

/-- Rejection or acceptance: a single step preserves the stored-focal bound. -/
theorem calibStep_focal_bounds (s : CalibState)
    (h : ∀ v, s.calibratedFocal = some v → 500 ≤ v ∧ v ≤ 3000)
    (op : CalibOp) :
    ∀ v, (calibStep s op).calibratedFocal = some v → 500 ≤ v ∧ v ≤ 3000 := by
  intro v hv
  cases op with
  | add f t =>
    simp only [calibStep, addSample] at hv
    split_ifs at hv <;> exact h v hv
  | reset => simp [calibStep, resetCalib] at hv
  | getCalibrated expf t =>
    simp only [calibStep] at hv
    rcases getCalibrated_spec expf s t with hs | ⟨w, hs, hlo, hhi⟩
    · rw [hs] at hv
      exact h v hv
    · rw [hs] at hv
      simp only [Option.some.injEq] at hv
      exact hv ▸ ⟨hlo, hhi⟩

/-- Claim C9: a rejecting `getCalibratedFocalLength` call returns `null` and
leaves the whole calibration state unchanged, and along any call sequence the
stored `calibratedFocal` always lies within [500, 3000]. -/
theorem calibrated_focal_reject_and_bounds :
    (∀ (expf : ℚ → ℚ) (s : CalibState) (now : ℚ),
      (getCalibratedFocalLength expf s now).1 = none →
      (getCalibratedFocalLength expf s now).2 = s) ∧
    (∀ (ops : List CalibOp) (v : ℚ),
      (calibRun initCalib ops).calibratedFocal = some v →
      500 ≤ v ∧ v ≤ 3000) := by
  constructor
  · intro expf s now hnone
    rcases getCalibrated_spec expf s now with hs | ⟨w, hs, _, _⟩
    · rw [hs]
    · rw [hs] at hnone
      exact absurd hnone (by simp)
  · have inv : ∀ (ops : List CalibOp) (s : CalibState),
        (∀ v, s.calibratedFocal = some v → 500 ≤ v ∧ v ≤ 3000) →
        ∀ v, (calibRun s ops).calibratedFocal = some v → 500 ≤ v ∧ v ≤ 3000 := by
      intro ops
      induction ops with
      | nil => intro s h v hv; exact h v hv
      | cons op ops ih =>
        intro s h v hv
        exact ih (calibStep s op) (calibStep_focal_bounds s h op) v hv
    intro ops v hv
    exact inv ops initCalib (by intro v hv; simp [initCalib] at hv) v hv

/-- A call sequence that actually stores a calibration: eight identical
samples of 600 px, then an accepting averaging call. -/
def wCalibOps : List CalibOp :=
  [.add 600 0, .add 600 0, .add 600 0, .add 600 0, .add 600 0, .add 600 0,
   .add 600 0, .add 600 0, .getCalibrated (fun _ => 1) 0]

/-- Evaluation of the whole of `wCalibOps`: the averaging call accepts and
stores 600. -/
theorem wCalib_eval : (calibRun initCalib wCalibOps).calibratedFocal = some 600 := by
  norm_num [wCalibOps, calibRun, calibStep, addSample, maxSamples, initCalib,
    getCalibratedFocalLength, sampleVariance, minSamples]

/-- Witness for C9: a rejecting call on the fresh state (too few samples)
leaves the state untouched, and the focal stored by `wCalibOps` obeys the
bounds. -/
theorem calibrated_focal_reject_and_bounds_witness :
    (getCalibratedFocalLength (fun _ => 1) initCalib 0).2 = initCalib ∧
    (500 ≤ (600 : ℚ) ∧ (600 : ℚ) ≤ 3000) := by
  constructor
  · refine calibrated_focal_reject_and_bounds.1 (fun _ => 1) initCalib 0 ?_
    norm_num [getCalibratedFocalLength, initCalib, minSamples]
  · exact calibrated_focal_reject_and_bounds.2 wCalibOps 600 wCalib_eval

end CameraCalibrator

/-! ### AdvancedPoseEstimator (AdvancedPoseEstimator.js) -/

namespace PoseEstimator

/-- The canonical-face-model correspondence table built by
`FaceModel3D._initializeModel` (AdvancedPoseEstimator.js, lines 25-128): each
entry pairs a MediaPipe landmark index with the canonical 3D vertex (mm) it
maps to.  `Object.entries` enumerates the integer-like keys of
`landmarkToModel` in ascending numeric order, which fixes the order below. -/
def faceModelTable : List (Nat × Vec3) := [
  (1, ⟨0, -26/5, 37/2⟩),         -- nose tip          (model vertex 1)
  (6, ⟨0, 5, 10⟩),               -- sellion           (9)
  (10, ⟨0, 35, 8⟩),              -- forehead center   (8)
  (13, ⟨0, -25, 12⟩),            -- upper lip         (20)
  (14, ⟨0, -35, 10⟩),            -- lower lip         (21)
  (33, ⟨65/2, 17/2, 17/2⟩),      -- right eye outer   (0)
  (50, ⟨50, -10, 10⟩),           -- right cheek       (16)
  (61, ⟨24, -30, 10⟩),           -- right mouth corner(4)
  (70, ⟨40, 20, 6⟩),             -- right eyebrow     (6)
  (98, ⟨12, -15, 15⟩),           -- right nostril     (14)
  (133, ⟨25/2, 17/2, 10⟩),       -- right eye inner   (12)
  (152, ⟨0, -55, 5⟩),            -- chin              (2)
  (172, ⟨45, -45, 0⟩),           -- right jaw         (18)
  (234, ⟨75, -5, -5⟩),           -- right ear tragus  (10)
  (263, ⟨-65/2, 17/2, 17/2⟩),    -- left eye outer    (3)
  (280, ⟨-50, -10, 10⟩),         -- left cheek        (17)
  (291, ⟨-24, -30, 10⟩),         -- left mouth corner (5)
  (300, ⟨-40, 20, 6⟩),           -- left eyebrow      (7)
  (327, ⟨-12, -15, 15⟩),         -- left nostril      (15)
  (362, ⟨-25/2, 17/2, 10⟩),      -- left eye inner    (13)
  (397, ⟨-45, -45, 0⟩),          -- left jaw          (19)
  (454, ⟨-75, -5, -5⟩)           -- left ear tragus   (11)
]

/-- A 2D↔3D correspondence (`_buildCorrespondences`, lines 444-470). -/
structure Correspondence where
  image : Pt2
  model : Vec3
  landmarkIdx : Nat
deriving Repr, DecidableEq

/-- `AdvancedPoseEstimator._buildCorrespondences(landmarks, width, height)`
(lines 444-470): for each table entry whose landmark is present, convert the
normalized coordinates to pixels and pair with the model vertex.  The
`Number.isFinite` guards are identically true over `ℚ`. -/
def buildCorrespondences (landmarks : List Landmark) (width height : ℚ) :
    List Correspondence :=
  faceModelTable.filterMap (fun entry =>
    match landmarks[entry.1]? with
    | some lm => some ⟨⟨lm.x * width, lm.y * height⟩, entry.2, entry.1⟩
    | none => none)

/-- The `RANSAC` constructor options (lines 229-234). -/
structure RANSACParams where
  maxIterations : Nat
  inlierThreshold : ℚ
  minInliers : Nat
deriving Repr, DecidableEq

/-- The default `RANSAC` options used by `AdvancedPoseEstimator`. -/
def defaultRANSAC : RANSACParams := ⟨100, 10, 6⟩

/-- Twice the triangle area spanned by three image points, as computed inside
`RANSAC._isValidSample` (lines 309-318). -/
def triArea (p q r : Pt2) : ℚ :=
  |(q.x - p.x) * (r.y - p.y) - (r.x - p.x) * (q.y - p.y)|

/-- `RANSAC._isValidSample(correspondences, sample)` (lines 302-322): a sample
of fewer than 3 indices is valid; otherwise every triple of its image points
must span area at least 100 (the source returns `false` on the first triple
with area `< 100`).  Out-of-range indices (never produced by the sampler) are
read as the origin. -/
def isValidSample (cs : List Correspondence) (sample : List Nat) : Bool :=
  if sample.length < 3 then true
  else
    let points := sample.map (fun i => ((cs[i]?).map Correspondence.image).getD ⟨0, 0⟩)
    decide (∀ i j k : Fin points.length, i.val < j.val → j.val < k.val →
      100 ≤ triArea (points.get i) (points.get j) (points.get k))

/-- `Math.floor(Math.random() * indices.length)` produces an arbitrary index
below `indices.length`; an arbitrary natural number reduced mod the length
models exactly that.  `spliceSample` mirrors the `indices.splice` loop of
`RANSAC._randomSample` (lines 292-300), consuming one draw per pick. -/
def spliceSample : List Nat → List Nat → List Nat
  | [], _ => []
  | _ :: _, [] => []
  | d :: ds, x :: xs =>
    let idxs := x :: xs
    let j := d % idxs.length
    idxs.getD j 0 :: spliceSample ds (idxs.eraseIdx j)

/-- `RANSAC._randomSample(n, k)` with the random draws taken from the stream
`rnd` starting at position `base`. -/
def randomSample (rnd : Nat → Nat) (base n k : Nat) : List Nat :=
  spliceSample ((List.range k).map (fun i => rnd (base + i))) (List.range n)

/-- The per-correspondence inlier test of `RANSAC.findInliers` (lines
261-276): project the model point (the source passes
`(model) => this.camera.project(model)` as `projectFn`, so no pose is
applied), and accept when the reprojection error is below the threshold.
A point that does not project (depth `≤ 0`) is never an inlier. -/
def inlierTest (hyp : ℚ → ℚ → ℚ) (projectFn : Vec3 → Option Pt2)
    (threshold : ℚ) (c : Correspondence) : Bool :=
  match projectFn c.model with
  | none => false
  | some projected =>
    decide (hyp (projected.x - c.image.x) (projected.y - c.image.y) < threshold)

/-- The inlier indices collected by one scoring pass of the
`RANSAC.findInliers` loop body (lines 258-276).  The projection function does
not depend on the sampled subset, so the collected set is the same for every
valid sample. -/
def scanInliers (hyp : ℚ → ℚ → ℚ) (projectFn : Vec3 → Option Pt2)
    (threshold : ℚ) (cs : List Correspondence) : List Nat :=
  (List.range cs.length).filter (fun i =>
    match cs[i]? with
    | some c => inlierTest hyp projectFn threshold c
    | none => false)

/-- The accumulated `totalError` of the same scoring pass. -/
def scanTotalError (hyp : ℚ → ℚ → ℚ) (projectFn : Vec3 → Option Pt2)
    (threshold : ℚ) (cs : List Correspondence) : ℚ :=
  ((List.range cs.length).filterMap (fun i =>
    match cs[i]? with
    | some c =>
      match projectFn c.model with
      | none => none
      | some projected =>
        let err := hyp (projected.x - c.image.x) (projected.y - c.image.y)
        if err < threshold then some err else none
    | none => none)).sum

/-- The running best score of the `findInliers` loop; `err = none` models the
initial `bestError = Infinity`. -/
structure BestScore where
  inliers : List Nat
  err : Option ℚ
deriving Repr, DecidableEq

/-- `totalError < bestError`, with `none` as `Infinity`. -/
def errLtB (a : ℚ) : Option ℚ → Bool
  | none => true
  | some b => decide (a < b)

/-- The iteration loop of `RANSAC.findInliers` (lines 249-287): draw a
sample, skip it if degenerate (`continue` also skips the early-termination
check), otherwise score the full set and keep the better of the two scores;
terminate early once the best inlier set covers 80% of the points. -/
def findLoop (hyp : ℚ → ℚ → ℚ) (projectFn : Vec3 → Option Pt2)
    (p : RANSACParams) (rnd : Nat → Nat) (cs : List Correspondence) :
    Nat → Nat → BestScore → BestScore
  | 0, _, best => best
  | fuel + 1, iter, best =>
    let n := cs.length
    let sample := randomSample rnd (4 * iter) n 4
    if isValidSample cs sample then
      let inliers := scanInliers hyp projectFn p.inlierThreshold cs
      let total := scanTotalError hyp projectFn p.inlierThreshold cs
      let best' :=
        if best.inliers.length < inliers.length ∨
            (inliers.length = best.inliers.length ∧ errLtB total best.err) then
          BestScore.mk inliers (some total)
        else best
      if (n : ℚ) * (8 / 10) ≤ (best'.inliers.length : ℚ) then best'
      else findLoop hyp projectFn p rnd cs fuel (iter + 1) best'
    else
      findLoop hyp projectFn p rnd cs fuel (iter + 1) best

/-- `RANSAC.findInliers(correspondences, projectFn)` (lines 242-290): with
fewer than `minInliers` points, or when the loop's best set is still smaller
than `minInliers`, every index is returned; otherwise the best inlier set. -/
def findInliers (hyp : ℚ → ℚ → ℚ) (projectFn : Vec3 → Option Pt2)
    (p : RANSACParams) (rnd : Nat → Nat) (cs : List Correspondence) : List Nat :=
  let n := cs.length
  if n < p.minInliers then List.range n
  else
    let best := findLoop hyp projectFn p rnd cs p.maxIterations 0 ⟨[], none⟩
    if p.minInliers ≤ best.inliers.length then best.inliers else List.range n

/-- A solved pose as consumed by `estimate` after `_solvePnP`: rotation
vector, translation, quaternion and Euler angles. -/
structure Pose where
  rotation : Vec3
  translation : Vec3
  quaternion : Quat
  euler : Vec3
deriving Repr, DecidableEq

/-- `THREE.Vector3.applyQuaternion(q)`: rotate `v` by the quaternion `q`
(t = 2·(q.xyz × v); v + q.w·t + q.xyz × t). -/
def applyQuaternion (v : Vec3) (q : Quat) : Vec3 :=
  let tx := 2 * (q.y * v.z - q.z * v.y)
  let ty := 2 * (q.z * v.x - q.x * v.z)
  let tz := 2 * (q.x * v.y - q.y * v.x)
  ⟨v.x + q.w * tx + q.y * tz - q.z * ty,
   v.y + q.w * ty + q.z * tx - q.x * tz,
   v.z + q.w * tz + q.x * ty - q.y * tx⟩

/-- The model-point transform used by `_calculateReprojectionError` (lines
847-853): rotate by the pose quaternion, then translate. -/
def transformPoint (pose : Pose) (m : Vec3) : Vec3 :=
  let t := applyQuaternion m pose.quaternion
  ⟨t.x + pose.translation.x, t.y + pose.translation.y, t.z + pose.translation.z⟩

/-- `AdvancedPoseEstimator._calculateReprojectionError(pose, correspondences)`
(lines 841-869): mean pixel error over the correspondences that project in
front of the camera; `none` models the `Infinity` returned when no point
contributes. -/
def calculateReprojectionError (hyp : ℚ → ℚ → ℚ) (cam : CameraIntrinsics)
    (pose : Pose) (cs : List Correspondence) : Option ℚ :=
  let errs := cs.filterMap (fun c =>
    (cam.project (transformPoint pose c.model)).map (fun projected =>
      hyp (c.image.x - projected.x) (c.image.y - projected.y)))
  if errs.length = 0 then none else some (errs.sum / errs.length)

/-- The result record built by `estimate` (lines 420-429).  The
`performance.now()` timestamp is environment data and is omitted;
`reprojectionError = none` models `Infinity`. -/
structure PoseResult where
  rotation : Vec3
  translation : Vec3
  quaternion : Quat
  euler : Vec3
  reprojectionError : Option ℚ
  confidence : ℚ
  inlierRatio : ℚ
deriving Repr, DecidableEq

/-- `Math.max(0, 1 - reprojectionError / 50)` (line 426), including the
`Infinity` case. -/
def confidenceOf : Option ℚ → ℚ
  | none => 0
  | some e => max 0 (1 - e / 50)

/-- `AdvancedPoseEstimator.estimate(landmarks, options)` (lines 369-435).
The numerical PnP chain `_solvePnP` (float power iteration seeded by
`Math.random`, Gram-Schmidt with square roots, trigonometric pose updates) is
abstracted as the parameter `solve`; every theorem below quantifies over all
possible `solve` behaviours, which include the source's.  `_refinePose` is an
empty function in the source (lines 830-833).  The camera-dimension refresh
(lines 374-380) is pre-applied: `cam` denotes the camera after `update`, and
`width`/`height` below are the camera's.  Inlier indices are in range, so the
`filterMap` lookup equals the source's direct indexing. -/
def estimate (hyp : ℚ → ℚ → ℚ) (solve : List Correspondence → Option Pose)
    (useRANSAC : Bool) (rnd : Nat → Nat) (cam : CameraIntrinsics)
    (landmarks : List Landmark) : Option PoseResult :=
  if landmarks.length = 0 then none
  else
    let correspondences := buildCorrespondences landmarks cam.width cam.height
    if correspondences.length < 6 then none
    else
      let inlierIndices :=
        if useRANSAC then
          findInliers hyp cam.project defaultRANSAC rnd correspondences
        else List.range correspondences.length
      let inlierCorrespondences := inlierIndices.filterMap (fun i => correspondences[i]?)
      match solve inlierCorrespondences with
      | none => none
      | some pose =>
        let reprojectionError := calculateReprojectionError hyp cam pose correspondences
        some {
          rotation := pose.rotation
          translation := pose.translation
          quaternion := pose.quaternion
          euler := pose.euler
          reprojectionError := reprojectionError
          confidence := confidenceOf reprojectionError
          inlierRatio := (inlierIndices.length : ℚ) / (correspondences.length : ℚ) }

/-- The inlier test succeeds exactly on points that project in front of the
camera with reprojection error below the threshold. -/
theorem inlierTest_true_iff (hyp : ℚ → ℚ → ℚ) (pf : Vec3 → Option Pt2)
    (thr : ℚ) (c : Correspondence) :
    inlierTest hyp pf thr c = true ↔
      ∃ projected, pf c.model = some projected ∧
        hyp (projected.x - c.image.x) (projected.y - c.image.y) < thr := by
  unfold inlierTest
  cases h : pf c.model <;> simp

/-- Membership in a RANSAC scoring pass. -/
theorem mem_scanInliers_iff (hyp : ℚ → ℚ → ℚ) (pf : Vec3 → Option Pt2)
    (thr : ℚ) (cs : List Correspondence) (i : Nat) :
    i ∈ scanInliers hyp pf thr cs ↔
      ∃ c, cs[i]? = some c ∧ inlierTest hyp pf thr c = true := by
  unfold scanInliers
  rw [List.mem_filter, List.mem_range]
  cases h : cs[i]? with
  | none =>
    simp only [h]
    constructor
    · rintro ⟨-, hfalse⟩
      exact absurd hfalse (by simp)
    · rintro ⟨c, hc, -⟩
      exact absurd hc (by simp)
  | some c =>
    have hi : i < cs.length := by
      by_contra hge
      rw [List.getElem?_eq_none (by omega)] at h
      exact Option.noConfusion h
    simp only [h]
    constructor
    · rintro ⟨-, ht⟩
      exact ⟨c, rfl, ht⟩
    · rintro ⟨c', hc', ht⟩
      cases hc'
      exact ⟨hi, ht⟩

/-- Claim C10: `CameraIntrinsics.project` returns `null` exactly on
non-positive depth and otherwise the guarded pinhole division; its callers
never use a non-positive depth: every RANSAC inlier has a positively-deep
model point, and the reprojection error is `Infinity` exactly when no
transformed point has positive depth. -/
theorem project_depth_guard (cam : CameraIntrinsics) (p : Vec3) :
    (cam.project p = none ↔ p.z ≤ 0) ∧
    (∀ q, cam.project p = some q → 0 < p.z ∧
      q.x = cam.focalLength * p.x / p.z + cam.cx ∧
      q.y = cam.focalLength * p.y / p.z + cam.cy) ∧
    (∀ (hyp : ℚ → ℚ → ℚ) (threshold : ℚ) (cs : List Correspondence) (i : Nat),
      i ∈ scanInliers hyp cam.project threshold cs →
      ∃ c, cs[i]? = some c ∧ 0 < c.model.z) ∧
    (∀ (hyp : ℚ → ℚ → ℚ) (pose : Pose) (cs : List Correspondence),
      calculateReprojectionError hyp cam pose cs = none ↔
        ∀ c ∈ cs, (transformPoint pose c.model).z ≤ 0) := by
  have hproj : ∀ p : Vec3, (cam.project p = none ↔ p.z ≤ 0) := by
    intro p
    unfold CameraIntrinsics.project
    split_ifs with h <;> simp [h]
  refine ⟨hproj p, ?_, ?_, ?_⟩
  · intro q hq
    unfold CameraIntrinsics.project at hq
    split_ifs at hq with h
    all_goals first
      | exact Option.noConfusion hq
      | (cases hq; exact ⟨not_le.mp h, rfl, rfl⟩)
  · intro hyp threshold cs i hi
    rw [mem_scanInliers_iff] at hi
    obtain ⟨c, hc, ht⟩ := hi
    rw [inlierTest_true_iff] at ht
    obtain ⟨projected, hp, -⟩ := ht
    refine ⟨c, hc, ?_⟩
    by_contra hz
    push_neg at hz
    rw [(hproj c.model).mpr hz] at hp
    exact Option.noConfusion hp
  · intro hyp pose cs
    simp only [calculateReprojectionError]
    split_ifs with h0
    · simp only [true_iff]
      rw [List.length_eq_zero, List.filterMap_eq_nil] at h0
      intro c hc
      have hm := h0 c hc
      rw [Option.map_eq_none'] at hm
      exact (hproj _).mp hm
    · constructor
      · intro h
        first
          | exact h.elim
          | exact Option.noConfusion h
      · intro hall
        exfalso
        apply h0
        rw [List.length_eq_zero, List.filterMap_eq_nil]
        intro c hc
        rw [Option.map_eq_none']
        exact (hproj _).mpr (hall c hc)

/-- Witness for C10: a concrete camera and point with positive depth, where
`project` divides by the depth 4. -/
theorem project_depth_guard_witness :
    0 < (Vec3.mk 1 2 4).z ∧
    (Pt2.mk 25 50).x =
      (CameraIntrinsics.mk 640 480 100 0 0).focalLength * (Vec3.mk 1 2 4).x /
        (Vec3.mk 1 2 4).z + (CameraIntrinsics.mk 640 480 100 0 0).cx ∧
    (Pt2.mk 25 50).y =
      (CameraIntrinsics.mk 640 480 100 0 0).focalLength * (Vec3.mk 1 2 4).y /
        (Vec3.mk 1 2 4).z + (CameraIntrinsics.mk 640 480 100 0 0).cy :=
  (project_depth_guard ⟨640, 480, 100, 0, 0⟩ ⟨1, 2, 4⟩).2.1 ⟨25, 50⟩
    (by norm_num [CameraIntrinsics.project])

/-- Claim C1: `estimate` produces a non-null result only when the built
correspondence set has at least 6 pairs; in particular with fewer than 4
valid mapped points it returns `null`. -/
theorem estimate_requires_six_correspondences
    (hyp : ℚ → ℚ → ℚ) (solve : List Correspondence → Option Pose)
    (useRANSAC : Bool) (rnd : Nat → Nat) (cam : CameraIntrinsics)
    (landmarks : List Landmark) :
    (estimate hyp solve useRANSAC rnd cam landmarks ≠ none →
      6 ≤ (buildCorrespondences landmarks cam.width cam.height).length) ∧
    ((buildCorrespondences landmarks cam.width cam.height).length < 4 →
      estimate hyp solve useRANSAC rnd cam landmarks = none) := by
  constructor
  · intro hne
    by_contra hlt
    push_neg at hlt
    apply hne
    simp only [estimate]
    split_ifs with h0 h6
    all_goals first | rfl | omega
  · intro h4
    simp only [estimate]
    split_ifs with h0 h6
    all_goals first | rfl | omega

/-- Witness for C1: the empty landmark list yields zero valid mapped points
and no estimate. -/
theorem estimate_requires_six_correspondences_witness :
    estimate (fun _ _ => 0) (fun _ => none) true (fun _ => 0)
      ⟨640, 480, 640, 320, 240⟩ [] = none := by
  refine (estimate_requires_six_correspondences (fun _ _ => 0) (fun _ => none)
    true (fun _ => 0) ⟨640, 480, 640, 320, 240⟩ []).2 ?_
  simp [buildCorrespondences, faceModelTable]

/-- Every recorded reprojection error is a mean of nonnegative per-point
errors, hence nonnegative (for a nonnegative `hyp`). -/
theorem reprojError_nonneg (hyp : ℚ → ℚ → ℚ) (hpos : ∀ a b, 0 ≤ hyp a b)
    (cam : CameraIntrinsics) (pose : Pose) (cs : List Correspondence) :
    ∀ e, calculateReprojectionError hyp cam pose cs = some e → 0 ≤ e := by
  intro e he
  simp only [calculateReprojectionError] at he
  split_ifs at he with h0
  all_goals first
    | exact Option.noConfusion he
    | (cases he
       apply div_nonneg
       · apply List.sum_nonneg
         intro x hx
         rw [List.mem_filterMap] at hx
         obtain ⟨c, -, hc⟩ := hx
         rcases ho : cam.project (transformPoint pose c.model) with - | pr
         · rw [ho] at hc
           exact Option.noConfusion hc
         · rw [ho] at hc
           simp only [Option.map_some', Option.some.injEq] at hc
           exact hc ▸ hpos _ _
       · positivity)

/-- Bounds for the confidence formula. -/
theorem confidenceOf_bounds (e? : Option ℚ) (h : ∀ e, e? = some e → 0 ≤ e) :
    0 ≤ confidenceOf e? ∧ confidenceOf e? ≤ 1 ∧
      (∀ e, e? = some e → 50 ≤ e → confidenceOf e? = 0) := by
  cases e? with
  | none => exact ⟨le_refl 0, by norm_num [confidenceOf], by intro e he; exact Option.noConfusion he⟩
  | some e =>
    have he : 0 ≤ e := h e rfl
    refine ⟨le_max_left 0 _, ?_, ?_⟩
    · apply max_le
      · norm_num
      · have : 0 ≤ e / 50 := by positivity
        linarith
    · intro e' he' h50
      cases he'
      have h1 : (1 : ℚ) ≤ e / 50 := by
        rw [le_div_iff (by norm_num : (0:ℚ) < 50)]
        linarith
      simp only [confidenceOf]
      rw [max_eq_left]
      linarith

/-- Claim C4: every pose result carries `confidence =
max(0, 1 - meanReprojectionError/50)` where the mean reprojection error comes
from `_calculateReprojectionError` over the built correspondences; the
confidence always lies in [0, 1], and a mean error of at least 50 px gives
confidence 0. -/
theorem estimate_confidence_formula
    (hyp : ℚ → ℚ → ℚ) (hpos : ∀ a b, 0 ≤ hyp a b)
    (solve : List Correspondence → Option Pose)
    (useRANSAC : Bool) (rnd : Nat → Nat) (cam : CameraIntrinsics)
    (landmarks : List Landmark) (r : PoseResult)
    (hr : estimate hyp solve useRANSAC rnd cam landmarks = some r) :
    (∃ pose, r.reprojectionError = calculateReprojectionError hyp cam pose
        (buildCorrespondences landmarks cam.width cam.height) ∧
      r.quaternion = pose.quaternion ∧ r.translation = pose.translation) ∧
    r.confidence = confidenceOf r.reprojectionError ∧
    (∀ e, r.reprojectionError = some e →
      r.confidence = max 0 (1 - e / 50) ∧ 0 ≤ e) ∧
    0 ≤ r.confidence ∧ r.confidence ≤ 1 ∧
    (∀ e, r.reprojectionError = some e → 50 ≤ e → r.confidence = 0) := by
  simp only [estimate] at hr
  by_cases h0 : landmarks.length = 0
  · rw [if_pos h0] at hr
    exact Option.noConfusion hr
  · rw [if_neg h0] at hr
    by_cases h6 : (buildCorrespondences landmarks cam.width cam.height).length < 6
    · rw [if_pos h6] at hr
      exact Option.noConfusion hr
    · rw [if_neg h6] at hr
      split at hr
      · exact Option.noConfusion hr
      · rename_i pose hs
        cases hr
        have herr : ∀ e, calculateReprojectionError hyp cam pose
            (buildCorrespondences landmarks cam.width cam.height) = some e → 0 ≤ e :=
          reprojError_nonneg hyp hpos cam pose _
        obtain ⟨hb0, hb1, hb50⟩ := confidenceOf_bounds _ herr
        refine ⟨⟨pose, rfl, rfl, rfl⟩, rfl, ?_, hb0, hb1, hb50⟩
        intro e he
        dsimp only at he ⊢
        refine ⟨?_, herr e he⟩
        rw [he]
        rfl

/-- In a duplicate-free list, the element at a position does not survive the
removal of that position. -/
theorem getElem_not_mem_eraseIdx :
    ∀ (l : List Nat) (j : Nat) (hj : j < l.length), l.Nodup →
      l[j] ∉ l.eraseIdx j := by
  intro l
  induction l with
  | nil => intro j hj; simp at hj
  | cons a t ih =>
    intro j hj hnd
    rw [List.nodup_cons] at hnd
    cases j with
    | zero =>
      simpa using hnd.1
    | succ j' =>
      simp only [List.eraseIdx_cons_succ, List.getElem_cons_succ]
      intro hmem
      rcases List.mem_cons.mp hmem with hmem | hmem
      · exact hnd.1 (hmem ▸ List.getElem_mem (by simpa using hj))
      · exact ih j' (by simpa using hj) hnd.2 hmem

/-- An element of a spliced sample is never removed from an empty pool, sits
in the original pool, and the sample has no duplicates. -/
theorem spliceSample_nodup_subset :
    ∀ (ds idxs : List Nat), idxs.Nodup →
      (spliceSample ds idxs).Nodup ∧ ∀ x ∈ spliceSample ds idxs, x ∈ idxs := by
  intro ds
  induction ds with
  | nil =>
    intro idxs _
    simp [spliceSample]
  | cons d ds ih =>
    intro idxs hnd
    cases idxs with
    | nil => simp [spliceSample]
    | cons a t =>
      simp only [spliceSample]
      have hjlt : d % (a :: t).length < (a :: t).length :=
        Nat.mod_lt _ (by simp)
      have hhead : (a :: t).getD (d % (a :: t).length) 0 =
          (a :: t)[d % (a :: t).length] := by
        rw [List.getD_eq_getElem?_getD, List.getElem?_eq_getElem hjlt]
        rfl
      obtain ⟨ihnd, ihsub⟩ := ih ((a :: t).eraseIdx (d % (a :: t).length))
        (List.Nodup.eraseIdx _ hnd)
      constructor
      · rw [List.nodup_cons]
        refine ⟨?_, ihnd⟩
        intro hmem
        have hin := ihsub _ hmem
        rw [hhead] at hin
        exact getElem_not_mem_eraseIdx (a :: t) _ hjlt hnd hin
      · intro x hx
        rcases List.mem_cons.mp hx with hx | hx
        · rw [hx, hhead]
          exact List.getElem_mem hjlt
        · exact List.eraseIdx_subset _ _ (ihsub x hx)

/-- Every index drawn by `_randomSample` is in range, and the draws are
pairwise distinct. -/
theorem randomSample_nodup_lt (rnd : Nat → Nat) (base n k : Nat) :
    (randomSample rnd base n k).Nodup ∧
      ∀ x ∈ randomSample rnd base n k, x < n := by
  obtain ⟨hnd, hsub⟩ := spliceSample_nodup_subset
    ((List.range k).map (fun i => rnd (base + i))) (List.range n) (List.nodup_range n)
  exact ⟨hnd, fun x hx => List.mem_range.mp (hsub x hx)⟩

/-- A sample of pairwise-distinct in-range indices is valid whenever every
triple of distinct correspondences spans enough image area. -/
theorem isValidSample_of_area (cs : List Correspondence) (sample : List Nat)
    (hnd : sample.Nodup) (hmem : ∀ x ∈ sample, x < cs.length)
    (harea : ∀ i j k : Fin cs.length, i.val ≠ j.val → i.val ≠ k.val →
      j.val ≠ k.val → 100 ≤ triArea (cs.get i).image (cs.get j).image
        (cs.get k).image) :
    isValidSample cs sample = true := by
  unfold isValidSample
  split_ifs with h3
  · rfl
  · rw [decide_eq_true_eq]
    intro i j k hij hjk
    have hilen : i.val < sample.length := by
      have := i.isLt
      simpa using this
    have hjlen : j.val < sample.length := by
      have := j.isLt
      simpa using this
    have hklen : k.val < sample.length := by
      have := k.isLt
      simpa using this
    have hig : sample[i.val] < cs.length := hmem _ (List.getElem_mem hilen)
    have hjg : sample[j.val] < cs.length := hmem _ (List.getElem_mem hjlen)
    have hkg : sample[k.val] < cs.length := hmem _ (List.getElem_mem hklen)
    simp only [List.get_eq_getElem, List.getElem_map]
    rw [List.getElem?_eq_getElem hig, List.getElem?_eq_getElem hjg,
      List.getElem?_eq_getElem hkg]
    simp only [Option.map_some', Option.getD_some]
    have harea' := harea ⟨sample[i.val], hig⟩ ⟨sample[j.val], hjg⟩
      ⟨sample[k.val], hkg⟩
    simp only [List.get_eq_getElem] at harea'
    apply harea'
    · intro h
      rw [hnd.getElem_inj_iff] at h
      omega
    · intro h
      rw [hnd.getElem_inj_iff] at h
      omega
    · intro h
      rw [hnd.getElem_inj_iff] at h
      omega

/-- Filtering out one element of a duplicate-free list drops its length by
exactly one. -/
theorem length_filter_ne (out : Nat) :
    ∀ (l : List Nat), l.Nodup → out ∈ l →
      (l.filter (fun i => decide (i ≠ out))).length + 1 = l.length := by
  intro l
  induction l with
  | nil => intro _ h; exact absurd h (List.not_mem_nil out)
  | cons a t ih =>
    intro hnd hm
    rw [List.nodup_cons] at hnd
    by_cases ha : a = out
    · subst ha
      have hself : t.filter (fun i => decide (i ≠ a)) = t := by
        apply List.filter_eq_self.mpr
        intro b hb
        rw [decide_eq_true_eq]
        intro hba
        exact hnd.1 (by rwa [hba] at hb)
      rw [List.filter_cons, if_neg (by simp), hself]
      simp
    · have hmt : out ∈ t := by
        rcases List.mem_cons.mp hm with hm | hm
        · exact absurd hm (fun h => ha h.symm)
        · exact hm
      have hrec := ih hnd.2 hmt
      rw [List.filter_cons, if_pos (by simpa using ha)]
      simpa using hrec

/-- Claim C2: with at least 6 mutually consistent clean points (each within
the 10 px inlier threshold of its projection, jointly in general position)
plus one injected outlier (outside the threshold), the inlier set returned by
`RANSAC.findInliers`, as invoked by `estimate` (projection function
`camera.project`, default parameters), excludes the outlier — for every
behaviour of `Math.random` and `Math.hypot`. -/
theorem ransac_excludes_injected_outlier
    (hyp : ℚ → ℚ → ℚ) (rnd : Nat → Nat) (cam : CameraIntrinsics)
    (cs : List Correspondence) (out : Nat)
    (hout : out < cs.length)
    (hclean : 7 ≤ cs.length)
    (hin : ∀ i : Fin cs.length, i.val ≠ out →
      inlierTest hyp cam.project 10 (cs.get i) = true)
    (houtlier : ∀ i : Fin cs.length, i.val = out →
      inlierTest hyp cam.project 10 (cs.get i) = false)
    (harea : ∀ i j k : Fin cs.length, i.val ≠ j.val → i.val ≠ k.val →
      j.val ≠ k.val → 100 ≤ triArea (cs.get i).image (cs.get j).image
        (cs.get k).image) :
    out ∉ findInliers hyp cam.project defaultRANSAC rnd cs := by
  have hscan : scanInliers hyp cam.project 10 cs =
      (List.range cs.length).filter (fun i => decide (i ≠ out)) := by
    unfold scanInliers
    apply List.filter_congr
    intro x hx
    rw [List.mem_range] at hx
    rw [List.getElem?_eq_getElem hx]
    show inlierTest hyp cam.project 10 cs[x] = decide (x ≠ out)
    by_cases hxo : x = out
    · have := houtlier ⟨x, hx⟩ hxo
      rw [List.get_eq_getElem] at this
      rw [this]
      simp [hxo]
    · have := hin ⟨x, hx⟩ hxo
      rw [List.get_eq_getElem] at this
      rw [this]
      simp [hxo]
  have hlen : ((List.range cs.length).filter (fun i => decide (i ≠ out))).length + 1 =
      cs.length := by
    have h := length_filter_ne out (List.range cs.length)
      (List.nodup_range cs.length) (List.mem_range.mpr hout)
    rwa [List.length_range] at h
  have hvalid : ∀ iter, isValidSample cs (randomSample rnd (4 * iter) cs.length 4) = true := by
    intro iter
    obtain ⟨hnd', hlt'⟩ := randomSample_nodup_lt rnd (4 * iter) cs.length 4
    exact isValidSample_of_area cs _ hnd' hlt' harea
  have hloop : ∀ fuel iter,
      findLoop hyp cam.project defaultRANSAC rnd cs (fuel + 1) iter ⟨[], none⟩ =
        ⟨(List.range cs.length).filter (fun i => decide (i ≠ out)),
          some (scanTotalError hyp cam.project defaultRANSAC.inlierThreshold cs)⟩ := by
    intro fuel iter
    have hq : (cs.length : ℚ) * (8 / 10) ≤
        (((List.range cs.length).filter (fun i => decide (i ≠ out))).length : ℚ) := by
      have h1 : (((List.range cs.length).filter (fun i => decide (i ≠ out))).length : ℚ)
          + 1 = (cs.length : ℚ) := by
        exact_mod_cast hlen
      have h7 : (7 : ℚ) ≤ (cs.length : ℚ) := by
        exact_mod_cast hclean
      linarith
    simp only [findLoop]
    rw [if_pos (by rw [hvalid iter])]
    have hthr : defaultRANSAC.inlierThreshold = (10 : ℚ) := rfl
    rw [hthr, hscan]
    rw [if_pos (Or.inl (by simp only [List.length_nil]; omega))]
    dsimp only
    rw [if_pos hq]
  unfold findInliers
  rw [if_neg (by dsimp only [defaultRANSAC]; omega)]
  have h100 : defaultRANSAC.maxIterations = 99 + 1 := rfl
  rw [h100, hloop 99 0]
  rw [if_pos (by dsimp only [defaultRANSAC]; omega)]
  intro hmem
  rw [List.mem_filter] at hmem
  simp at hmem

/-- Concrete camera for the RANSAC witness. -/
def c2cam : CameraIntrinsics := ⟨640, 480, 100, 0, 0⟩
/-- Squared-distance stand-in for Math.hypot. -/
def c2hyp : ℚ → ℚ → ℚ := fun a b => a * a + b * b
/-- Six clean correspondences on a parabola plus one displaced outlier (index 6). -/
def c2cs : List Correspondence :=
  [⟨⟨0, 0⟩, ⟨0, 0, 1⟩, 0⟩,
   ⟨⟨100, 10⟩, ⟨1, 1/10, 1⟩, 0⟩,
   ⟨⟨200, 40⟩, ⟨2, 4/10, 1⟩, 0⟩,
   ⟨⟨300, 90⟩, ⟨3, 9/10, 1⟩, 0⟩,
   ⟨⟨400, 160⟩, ⟨4, 16/10, 1⟩, 0⟩,
   ⟨⟨500, 250⟩, ⟨5, 25/10, 1⟩, 0⟩,
   ⟨⟨700, 490⟩, ⟨6, 36/10, 1⟩, 0⟩]

set_option maxHeartbeats 4000000 in
/-- Witness for C2: the injected outlier at index 6 is excluded. -/
theorem ransac_excludes_injected_outlier_witness :
    6 ∉ findInliers c2hyp c2cam.project defaultRANSAC (fun _ => 0) c2cs := by
  apply ransac_excludes_injected_outlier c2hyp (fun _ => 0) c2cam c2cs 6
  · norm_num [c2cs]
  · norm_num [c2cs]
  · intro i hi
    fin_cases i <;>
      simp only [c2cs, inlierTest, CameraIntrinsics.project, c2hyp, c2cam,
        List.get_eq_getElem, List.getElem_cons_zero, List.getElem_cons_succ,
        Fin.isValue, Fin.val_zero, Fin.val_succ, ne_eq] at hi ⊢ <;>
      norm_num <;>
      first
        | exact hi trivial
        | omega
  · intro i hi
    fin_cases i <;>
      simp only [c2cs, inlierTest, CameraIntrinsics.project, c2hyp, c2cam,
        List.get_eq_getElem, List.getElem_cons_zero, List.getElem_cons_succ,
        Fin.isValue, Fin.val_zero, Fin.val_succ, ne_eq] at hi ⊢ <;>
      norm_num <;>
      first
        | exact hi trivial
        | omega
  · intro i j k hij hik hjk
    fin_cases i <;> fin_cases j <;> fin_cases k <;>
      simp only [c2cs, triArea, List.get_eq_getElem, List.getElem_cons_zero,
        List.getElem_cons_succ, Fin.isValue, Fin.val_zero, Fin.val_succ,
        ne_eq, not_true_eq_false, not_false_iff] at hij hik hjk ⊢ <;>
      norm_num

/-- Concrete camera for the confidence witness. -/
def c4cam : CameraIntrinsics := ⟨640, 480, 640, 320, 240⟩

/-- Concrete landmark list (34 centred landmarks, giving 6 mapped points). -/
def c4lms : List Landmark := List.replicate 34 ⟨1/2, 1/2⟩

/-- Concrete pose returned by the abstract solver in the witness. -/
def c4pose : Pose := ⟨⟨0, 0, 0⟩, ⟨0, 0, 100⟩, ⟨0, 0, 0, 1⟩, ⟨0, 0, 0⟩⟩

/-- Constant solver for the witness. -/
def c4solve : List Correspondence → Option Pose := fun _ => some c4pose

/-- A nonnegative stand-in for `Math.hypot` (squared distance). -/
def c4hyp : ℚ → ℚ → ℚ := fun a b => a * a + b * b

/-- The correspondences built from `c4lms`. -/
def c4cs : List Correspondence :=
  [⟨⟨320, 240⟩, ⟨0, -26/5, 37/2⟩, 1⟩, ⟨⟨320, 240⟩, ⟨0, 5, 10⟩, 6⟩,
   ⟨⟨320, 240⟩, ⟨0, 35, 8⟩, 10⟩, ⟨⟨320, 240⟩, ⟨0, -25, 12⟩, 13⟩,
   ⟨⟨320, 240⟩, ⟨0, -35, 10⟩, 14⟩, ⟨⟨320, 240⟩, ⟨65/2, 17/2, 17/2⟩, 33⟩]

/-- The mean reprojection error of the witness configuration. -/
def c4err : ℚ := 38565458926646048 / 1587127159827

/-- The pose result produced by the witness configuration. -/
def c4res : PoseResult :=
  ⟨⟨0, 0, 0⟩, ⟨0, 0, 100⟩, ⟨0, 0, 0, 1⟩, ⟨0, 0, 0⟩, some c4err, 0, 1⟩

set_option maxHeartbeats 2000000 in
/-- Evaluation of `estimate` on the witness configuration. -/
theorem c4eq : estimate c4hyp c4solve false (fun _ => 0) c4cam c4lms = some c4res := by
  have hb : buildCorrespondences c4lms c4cam.width c4cam.height = c4cs := by
    simp [buildCorrespondences, faceModelTable, c4lms, c4cam, c4cs,
      List.getElem?_replicate]
    norm_num
  have hre : calculateReprojectionError c4hyp c4cam c4pose c4cs = some c4err := by
    norm_num [calculateReprojectionError, transformPoint, applyQuaternion,
      CameraIntrinsics.project, c4hyp, c4cam, c4pose, c4cs, c4err,
      List.filterMap_cons, List.filterMap_nil, List.sum_cons, List.sum_nil]
  have hconf : confidenceOf (some c4err) = 0 := by
    simp only [confidenceOf]
    rw [max_eq_left (by norm_num [c4err])]
  simp only [estimate, hb]
  rw [if_neg (by norm_num [c4lms]), if_neg (by norm_num [c4cs])]
  simp only [Bool.false_eq_true, if_false, c4solve]
  rw [hre, hconf]
  norm_num [c4pose, c4res, c4cs]

/-- Witness for C4: on the concrete configuration the produced confidence is
the clamped formula value and lies in [0, 1]. -/
theorem estimate_confidence_formula_witness :
    0 ≤ c4res.confidence ∧ c4res.confidence ≤ 1 ∧
      c4res.confidence = confidenceOf c4res.reprojectionError := by
  have h := estimate_confidence_formula c4hyp
    (fun a b => add_nonneg (mul_self_nonneg a) (mul_self_nonneg b)) c4solve
    false (fun _ => 0) c4cam c4lms c4res c4eq
  exact ⟨h.2.2.2.1, h.2.2.2.2.1, h.2.1⟩

end PoseEstimator

/-! ### ProductionStabilizer (ProductionStabilizer.js) -/

namespace Stabilizer

/-- A component triple (x, y, z), used for the per-axis filter banks. -/
structure Triple (α : Type) where
  x : α
  y : α
  z : α
deriving Repr, DecidableEq

/-- State of a `OneEuroFilter` (ProductionStabilizer.js, lines 24-110):
filtered value, filtered derivative, previous raw value, previous timestamp,
and the two embedded `LowPassFilter` states (their single `x` field,
`null`-able). -/
structure OneEuroState where
  x : Option ℚ
  dx : ℚ
  lastX : Option ℚ
  lastTime : Option ℚ
  xFilter : Option ℚ
  dxFilter : Option ℚ
deriving Repr, DecidableEq

/-- Fresh `OneEuroFilter` state (constructor / `reset()`). -/
def initOneEuro : OneEuroState := ⟨none, 0, none, none, none, none⟩

/-- State of a `DoubleExponentialSmoother` (lines 375-422). -/
structure DoubleExpState where
  level : Option ℚ
  trend : Option ℚ
  initDone : Bool
deriving Repr, DecidableEq

/-- Fresh `DoubleExponentialSmoother` state. -/
def initDoubleExp : DoubleExpState := ⟨none, none, false⟩

/-- State of a `JitterSuppressor` (lines 428-477). -/
structure JitterState where
  history : List ℚ
  variance : ℚ
deriving Repr, DecidableEq

/-- Fresh `JitterSuppressor` state. -/
def initJitter : JitterState := ⟨[], 0⟩

/-- State of the `PoseKalmanFilter` (lines 138-369): the first seven entries
of the 13-dimensional state vector (position, quaternion), the velocity
entries, and the `initialized` flag.  The covariance matrix `P` is read only
by the covariance-dependent correction path, which (together with the whole
steady-state filter cascade) is abstracted as a function parameter below, so
it is not carried here. -/
structure KalmanState where
  pos : Vec3
  quat : Quat
  vel : Vec3
  angVel : Vec3
  initDone : Bool
deriving Repr, DecidableEq

/-- Fresh `PoseKalmanFilter` state (constructor / `reset()`): zero vector with
identity quaternion, uninitialized. -/
def initKalman : KalmanState := ⟨⟨0, 0, 0⟩, ⟨0, 0, 0, 1⟩, ⟨0, 0, 0⟩, ⟨0, 0, 0⟩, false⟩

/-- `PoseKalmanFilter.update(measurement)` (lines 270-331): an uninitialized
filter copies the measurement and marks itself initialized; the initialized
correction (diagonal-gain update followed by a square-root quaternion
renormalisation) depends on the abstracted covariance and is supplied as the
parameter `kupdInit`. -/
def kalmanUpdate (kupdInit : KalmanState → Vec3 → Quat → KalmanState)
    (k : KalmanState) (mpos : Vec3) (mquat : Quat) : KalmanState :=
  if k.initDone then kupdInit k mpos mquat
  else { k with pos := mpos, quat := mquat, initDone := true }

/-- The `this.metrics` record of `ProductionStabilizer` (lines 588-592). -/
structure StabMetrics where
  jitterLevel : ℚ
  smoothness : ℚ
  latency : ℚ
deriving Repr, DecidableEq

/-- The mutable state of a `ProductionStabilizer` instance (constructor,
lines 484-593).  The numeric configuration (cutoffs, betas, …) is only read
by the steady-state branch, which is abstracted as a parameter, so it is not
carried here. -/
structure StabState where
  positionFilters : Triple OneEuroState
  rotationFilters : Triple OneEuroState
  scaleFilters : Triple OneEuroState
  kalman : KalmanState
  doubleExp : Triple DoubleExpState
  jitter : Triple JitterState
  position : Vec3
  quaternion : Quat
  scale : Vec3
  velocity : Vec3
  initDone : Bool
  lastTimestamp : Option ℚ
  lastConfidence : ℚ
  metrics : StabMetrics
deriving Repr, DecidableEq

/-- The constructor state of `ProductionStabilizer` (lines 484-593): identity
pose, unit scale, uninitialized. -/
def initStab : StabState :=
  { positionFilters := ⟨initOneEuro, initOneEuro, initOneEuro⟩
    rotationFilters := ⟨initOneEuro, initOneEuro, initOneEuro⟩
    scaleFilters := ⟨initOneEuro, initOneEuro, initOneEuro⟩
    kalman := initKalman
    doubleExp := ⟨initDoubleExp, initDoubleExp, initDoubleExp⟩
    jitter := ⟨initJitter, initJitter, initJitter⟩
    position := ⟨0, 0, 0⟩
    quaternion := ⟨0, 0, 0, 1⟩
    scale := ⟨1, 1, 1⟩
    velocity := ⟨0, 0, 0⟩
    initDone := false
    lastTimestamp := none
    lastConfidence := 1
    metrics := ⟨0, 1, 0⟩ }

/-- `ProductionStabilizer.reset()` (lines 833-857): clears every filter and
the pose state; the `metrics` record is not touched by `reset()`. -/
def resetStab (s : StabState) : StabState :=
  { s with
    positionFilters := ⟨initOneEuro, initOneEuro, initOneEuro⟩
    rotationFilters := ⟨initOneEuro, initOneEuro, initOneEuro⟩
    scaleFilters := ⟨initOneEuro, initOneEuro, initOneEuro⟩
    kalman := initKalman
    doubleExp := ⟨initDoubleExp, initDoubleExp, initDoubleExp⟩
    jitter := ⟨initJitter, initJitter, initJitter⟩
    position := ⟨0, 0, 0⟩
    quaternion := ⟨0, 0, 0, 1⟩
    scale := ⟨1, 1, 1⟩
    velocity := ⟨0, 0, 0⟩
    initDone := false
    lastTimestamp := none
    lastConfidence := 1 }

/-- The measurement consumed by `ProductionStabilizer.update`:
`{position, quaternion, scale, confidence}`, with `scale` and `confidence`
optional exactly as in the source (`if (pose.scale)`,
`pose.confidence || 1`). -/
structure SPose where
  position : Vec3
  quaternion : Quat
  scale : Option Vec3
  confidence : Option ℚ
deriving Repr, DecidableEq

/-- The stabilized pose returned by `_getResult()` (lines 811-820). -/
structure SResult where
  position : Vec3
  quaternion : Quat
  scale : Vec3
  velocity : Vec3
  confidence : ℚ
  metrics : StabMetrics
deriving Repr, DecidableEq

/-- `_getResult()` (lines 811-820): clones of the current state. -/
def getResult (s : StabState) : SResult :=
  ⟨s.position, s.quaternion, s.scale, s.velocity, s.lastConfidence, s.metrics⟩

/-- `ProductionStabilizer._initialize(pose)` (lines 651-664): copy position
and quaternion, copy the scale when present, mark initialized, stamp the
clock (`performance.now() / 1000`, passed here as `clockNow`), and push the
measurement into the Kalman filter. -/
def initFirstPose (kupdInit : KalmanState → Vec3 → Quat → KalmanState)
    (s : StabState) (pose : SPose) (clockNow : ℚ) : StabState :=
  let s1 := { s with position := pose.position, quaternion := pose.quaternion }
  let s2 := match pose.scale with
    | some sc => { s1 with scale := sc }
    | none => s1
  let s3 := { s2 with initDone := true, lastTimestamp := some clockNow }
  { s3 with kalman := kalmanUpdate kupdInit s3.kalman s3.position s3.quaternion }

/-- `ProductionStabilizer.update(pose, timestamp)` (lines 601-645).  The
uninitialized branch (`_initialize` and return) is modelled concretely; the
initialized filter cascade (jitter suppression, One-Euro filtering with
`2π`-based cutoffs, double exponential smoothing, SLERP, Kalman blending.
all involving transcendental functions) is abstracted as the parameter
`stepFull`, over which every theorem quantifies.  In both branches the
result is `_getResult()` of the post-call state, as in the source. -/
def update (kupdInit : KalmanState → Vec3 → Quat → KalmanState)
    (stepFull : StabState → SPose → ℚ → StabState)
    (s : StabState) (pose : SPose) (timestamp : ℚ) (clockNow : ℚ) :
    StabState × SResult :=
  if s.initDone then
    let s' := stepFull s pose timestamp
    (s', getResult s')
  else
    let s' := initFirstPose kupdInit s pose clockNow
    (s', getResult s')

/-- Claim C3: the very first `update` call on a freshly constructed or
freshly reset stabilizer returns exactly the input pose — position,
quaternion, and (when supplied) scale equal the measurement, with no
filtering applied — for every behaviour of the abstracted filter cascade. -/
theorem first_update_returns_input
    (kupdInit : KalmanState → Vec3 → Quat → KalmanState)
    (stepFull : StabState → SPose → ℚ → StabState)
    (pose : SPose) (timestamp clockNow : ℚ) :
    ((update kupdInit stepFull initStab pose timestamp clockNow).2.position =
        pose.position ∧
      (update kupdInit stepFull initStab pose timestamp clockNow).2.quaternion =
        pose.quaternion ∧
      (∀ sc, pose.scale = some sc →
        (update kupdInit stepFull initStab pose timestamp clockNow).2.scale = sc)) ∧
    (∀ s : StabState,
      (update kupdInit stepFull (resetStab s) pose timestamp clockNow).2.position =
        pose.position ∧
      (update kupdInit stepFull (resetStab s) pose timestamp clockNow).2.quaternion =
        pose.quaternion ∧
      (∀ sc, pose.scale = some sc →
        (update kupdInit stepFull (resetStab s) pose timestamp clockNow).2.scale = sc)) := by
  have key : ∀ s : StabState, s.initDone = false →
      (update kupdInit stepFull s pose timestamp clockNow).2.position = pose.position ∧
      (update kupdInit stepFull s pose timestamp clockNow).2.quaternion = pose.quaternion ∧
      (∀ sc, pose.scale = some sc →
        (update kupdInit stepFull s pose timestamp clockNow).2.scale = sc) := by
    intro s hs
    simp only [update, hs, Bool.false_eq_true, if_false, initFirstPose, getResult]
    cases hsc : pose.scale with
    | none => exact ⟨rfl, rfl, fun sc h => Option.noConfusion h⟩
    | some sc0 =>
      refine ⟨rfl, rfl, ?_⟩
      intro sc h
      cases h
      rfl
  exact ⟨key initStab rfl, fun s => key (resetStab s) rfl⟩

/-- Witness for C3: a concrete first measurement is returned verbatim. -/
theorem first_update_returns_input_witness :
    (update (fun k _ _ => k) (fun s _ _ => s) initStab
      ⟨⟨1, 2, 3⟩, ⟨0, 1, 0, 0⟩, some ⟨2, 2, 2⟩, some (1/2)⟩ 0 0).2.position = ⟨1, 2, 3⟩ ∧
    (update (fun k _ _ => k) (fun s _ _ => s) initStab
      ⟨⟨1, 2, 3⟩, ⟨0, 1, 0, 0⟩, some ⟨2, 2, 2⟩, some (1/2)⟩ 0 0).2.quaternion = ⟨0, 1, 0, 0⟩ ∧
    (update (fun k _ _ => k) (fun s _ _ => s) initStab
      ⟨⟨1, 2, 3⟩, ⟨0, 1, 0, 0⟩, some ⟨2, 2, 2⟩, some (1/2)⟩ 0 0).2.scale = ⟨2, 2, 2⟩ := by
  obtain ⟨h1, h2, h3⟩ := (first_update_returns_input (fun k _ _ => k) (fun s _ _ => s)
    ⟨⟨1, 2, 3⟩, ⟨0, 1, 0, 0⟩, some ⟨2, 2, 2⟩, some (1/2)⟩ 0 0).1
  exact ⟨h1, h2, h3 ⟨2, 2, 2⟩ rfl⟩

end Stabilizer

/-! ### TrackingQualityMonitor (TrackingQualityMonitor.js) -/

namespace QualityMonitor

/-- `TRACKING_STATES` (TrackingQualityMonitor.js, lines 30-39).  The
`REINITIALIZE`-style identifiers of the source are abbreviated (`reinit`). -/
inductive TrackState where
  | initializing
  | trackingExcellent
  | trackingGood
  | trackingAcceptable
  | trackingPoor
  | recovering
  | lost
  | error
deriving Repr, DecidableEq

/-- `RECOVERY_STRATEGIES` (lines 44-51). -/
inductive RecoveryStrategy where
  | none
  | reinit
  | resetFilters
  | adjustThresholds
  | reduceQuality
  | fullReset
deriving Repr, DecidableEq

/-- State of one `QualityMetric` (lines 56-121).  The name, weight,
threshold, and history size are per-metric constants fixed in the monitor's
constructor and are kept as literals in the functions below. -/
structure MetricState where
  history : List ℚ
  current : ℚ
  average : ℚ
  trend : ℚ
deriving Repr, DecidableEq

/-- Fresh `QualityMetric` state. -/
def initMetric : MetricState := ⟨[], 0, 0, 0⟩

/-- Every metric uses the default `historySize` of 30 (line 60). -/
def metricHistorySize : Nat := 30

/-- `QualityMetric.update(value)` (lines 73-94): push into the bounded
history, recompute the mean, and for five or more samples the
linear-regression trend slope. -/
def metricUpdate (m : MetricState) (value : ℚ) : MetricState :=
  let history := m.history ++ [value]
  let history := if metricHistorySize < history.length then history.drop 1 else history
  let average := history.sum / history.length
  let trend :=
    if 5 ≤ history.length then
      let n : ℚ := history.length
      let sumX := n * (n - 1) / 2
      let sumY := history.sum
      let sumXY := (history.enum.map (fun p => (p.1 : ℚ) * p.2)).sum
      let sumX2 := n * (n - 1) * (2 * n - 1) / 6
      (n * sumXY - sumX * sumY) / (n * sumX2 - sumX * sumX)
    else m.trend
  ⟨history, value, average, trend⟩

/-- The six metric trackers created in the constructor (lines 156-163). -/
structure Metrics where
  landmarkConfidence : MetricState
  poseStability : MetricState
  reprojectionError : MetricState
  faceVisibility : MetricState
  motionConsistency : MetricState
  occlusionLevel : MetricState
deriving Repr, DecidableEq

/-- Fresh metric bank. -/
def initMetrics : Metrics :=
  ⟨initMetric, initMetric, initMetric, initMetric, initMetric, initMetric⟩

/-- The monitor configuration (constructor, lines 129-153) without the
callback fields: callbacks are modelled as emitted events. -/
structure MonitorConfig where
  excellentThreshold : ℚ
  goodThreshold : ℚ
  acceptableThreshold : ℚ
  poorThreshold : ℚ
  criticalThreshold : ℚ
  recoveryEnabled : Bool
  recoveryDelay : ℚ
  maxRecoveryAttempts : Nat
  recoveryCooldown : ℚ
  predictionEnabled : Bool
  predictionWindow : Nat
deriving Repr, DecidableEq

/-- The default configuration (`QUALITY_THRESHOLDS`, lines 19-25, and the
constructor defaults, lines 129-146). -/
def defaultMonitorConfig : MonitorConfig :=
  ⟨9/10, 3/4, 1/2, 3/10, 3/20, true, 500, 3, 2000, true, 10⟩

/-- One landmark as read by the monitor's visibility/occlusion estimators. -/
structure QLandmark where
  x : ℚ
  y : ℚ
  presence : Option ℚ
deriving Repr, DecidableEq

/-- The per-frame tracking data consumed by `update(trackingData)`; absent
fields are `undefined` in the source and `none` here. -/
structure TrackingData where
  confidence : Option ℚ
  poseStability : Option ℚ
  reprojectionError : Option ℚ
  faceVisibility : Option ℚ
  occlusionLevel : Option ℚ
  velocity : Option Vec3
  landmarks : Option (List QLandmark)
deriving Repr, DecidableEq

/-- The mutable monitor state (constructor, lines 127-188).  The
`performanceHistory` array is written nowhere in the source and is omitted. -/
structure MonitorState where
  config : MonitorConfig
  metrics : Metrics
  state : TrackState
  previousState : Option TrackState
  overallQuality : ℚ
  qualityHistory : List ℚ
  recoveryAttempts : Nat
  lastRecoveryTime : ℚ
  recoveryInProgress : Bool
  lossStartTime : Option ℚ
  lossDuration : ℚ
  predictedLoss : Bool
  frameCount : Nat
  lastFrameTime : ℚ
  fps : ℚ
deriving Repr, DecidableEq

/-- The constructor state with a given configuration. -/
def initMonitor (cfg : MonitorConfig) : MonitorState :=
  { config := cfg
    metrics := initMetrics
    state := .initializing
    previousState := Option.none
    overallQuality := 0
    qualityHistory := []
    recoveryAttempts := 0
    lastRecoveryTime := 0
    recoveryInProgress := false
    lossStartTime := Option.none
    lossDuration := 0
    predictedLoss := false
    frameCount := 0
    lastFrameTime := 0
    fps := 0 }

/-- Callback firings, in source order (`_triggerCallback`). -/
inductive MonitorEvent where
  | qualityChange (q : ℚ)
  | stateChange (stFrom stTo : TrackState)
  | trackingLost
  | trackingRecovered
  | recoveryAttempt (attempt : Nat) (strategy : RecoveryStrategy)
deriving Repr, DecidableEq

/-- `_calculateVariance(arr)` (lines 373-377). -/
def listVariance (arr : List ℚ) : ℚ :=
  if arr.length = 0 then 0
  else
    let mean := arr.sum / arr.length
    (arr.map (fun b => (b - mean) ^ 2)).sum / arr.length

/-- `_estimatePoseStability(trackingData)` (lines 293-307); `hyp3` models the
three-argument `Math.hypot`. -/
def estimatePoseStability (hyp3 : ℚ → ℚ → ℚ → ℚ) (d : TrackingData) : ℚ :=
  match d.velocity with
  | some v => max 0 (1 - hyp3 v.x v.y v.z / 100)
  | none => 7/10

/-- `_estimateFaceVisibility(trackingData)` (lines 314-328): fraction of
landmarks inside the unit square (`0` without landmarks). -/
def estimateFaceVisibility (d : TrackingData) : ℚ :=
  match d.landmarks with
  | none => 0
  | some lms =>
    let visibleCount := (lms.filter (fun lm =>
      decide (0 ≤ lm.x ∧ lm.x ≤ 1 ∧ 0 ≤ lm.y ∧ lm.y ≤ 1))).length
    (visibleCount : ℚ) / (lms.length : ℚ)

/-- `_estimateMotionConsistency(trackingData)` (lines 335-346): variance of
the last five recorded overall qualities (the history before this frame's
push). -/
def estimateMotionConsistency (qualityHistory : List ℚ) : ℚ :=
  if qualityHistory.length < 3 then 1
  else
    let recent := qualityHistory.drop (qualityHistory.length - 5)
    max 0 (1 - listVariance recent * 5)

/-- `_estimateOcclusion(trackingData)` (lines 353-366): fraction of landmarks
with a sub-0.5 presence (`1` without landmarks).  Landmark entries are
non-null, so the `!lm` test of the source is identically false. -/
def estimateOcclusion (d : TrackingData) : ℚ :=
  match d.landmarks with
  | none => 1
  | some lms =>
    let occludedCount := (lms.filter (fun lm =>
      match lm.presence with
      | some p => decide (p < 1/2)
      | none => false)).length
    (occludedCount : ℚ) / (lms.length : ℚ)

/-- `_updateMetrics(trackingData)` (lines 238-286): without data every metric
is driven to 0; with data each metric takes its supplied value or the
corresponding estimate (inverting reprojection error and occlusion).  The
instance fields it reads (`this.metrics`, and `this.qualityHistory` via
`_estimateMotionConsistency`) are passed explicitly. -/
def updateMetrics (hyp3 : ℚ → ℚ → ℚ → ℚ) (m : Metrics) (qualityHistory : List ℚ)
    (d : Option TrackingData) : Metrics :=
  match d with
  | none =>
    ⟨metricUpdate m.landmarkConfidence 0,
     metricUpdate m.poseStability 0,
     metricUpdate m.reprojectionError 0,
     metricUpdate m.faceVisibility 0,
     metricUpdate m.motionConsistency 0,
     metricUpdate m.occlusionLevel 0⟩
  | some data =>
    let lc := match data.confidence with
      | some c => metricUpdate m.landmarkConfidence c
      | none => m.landmarkConfidence
    let ps := match data.poseStability with
      | some v => metricUpdate m.poseStability v
      | none => metricUpdate m.poseStability (estimatePoseStability hyp3 data)
    let re := match data.reprojectionError with
      | some e => metricUpdate m.reprojectionError (max 0 (1 - e / 50))
      | none => m.reprojectionError
    let fv := match data.faceVisibility with
      | some v => metricUpdate m.faceVisibility v
      | none => metricUpdate m.faceVisibility (estimateFaceVisibility data)
    let mc := metricUpdate m.motionConsistency
      (estimateMotionConsistency qualityHistory)
    let oc := match data.occlusionLevel with
      | some v => metricUpdate m.occlusionLevel (1 - v)
      | none => metricUpdate m.occlusionLevel (1 - estimateOcclusion data)
    ⟨lc, ps, re, fv, mc, oc⟩

/-- The sum of the six metric weights fixed in the constructor
(0.25 + 0.2 + 0.15 + 0.2 + 0.1 + 0.1). -/
def totalMetricWeight : ℚ := 1/4 + 1/5 + 3/20 + 1/5 + 1/10 + 1/10

/-- `_calculateOverallQuality()` (lines 382-392): weighted sum of the current
metric values over the total weight. -/
def calculateOverallQuality (m : Metrics) : ℚ :=
  if 0 < totalMetricWeight then
    (m.landmarkConfidence.current * (1/4) + m.poseStability.current * (1/5) +
     m.reprojectionError.current * (3/20) + m.faceVisibility.current * (1/5) +
     m.motionConsistency.current * (1/10) + m.occlusionLevel.current * (1/10)) /
      totalMetricWeight
  else 0

/-- The threshold cascade of `_updateState()` (lines 397-412). -/
def stateForQuality (cfg : MonitorConfig) (q : ℚ) : TrackState :=
  if cfg.excellentThreshold ≤ q then .trackingExcellent
  else if cfg.goodThreshold ≤ q then .trackingGood
  else if cfg.acceptableThreshold ≤ q then .trackingAcceptable
  else if cfg.poorThreshold ≤ q then .trackingPoor
  else if cfg.criticalThreshold ≤ q then .recovering
  else .lost

/-- `_handleStateChange(from, to)` (lines 425-445): record the previous
state, stamp or clear the loss timer, and fire the callbacks in source
order. -/
def handleStateChange (s : MonitorState) (stFrom stTo : TrackState) (now : ℚ) :
    MonitorState × List MonitorEvent :=
  let s1 := { s with previousState := some stFrom }
  let lostEnter := stTo = TrackState.lost ∧ stFrom ≠ TrackState.lost
  let lostLeave := stFrom = TrackState.lost ∧ stTo ≠ TrackState.lost
  let s2 := if lostEnter then { s1 with lossStartTime := some now } else s1
  let evs1 : List MonitorEvent := if lostEnter then [.trackingLost] else []
  let s3 := if lostLeave then
      { s2 with lossStartTime := Option.none, lossDuration := 0, recoveryAttempts := 0 }
    else s2
  let evs2 : List MonitorEvent := if lostLeave then [.trackingRecovered] else []
  (s3, evs1 ++ evs2 ++ [.stateChange stFrom stTo, .qualityChange s3.overallQuality])

/-- `_updateState()` (lines 397-418). -/
def updateStateM (s : MonitorState) (now : ℚ) : MonitorState × List MonitorEvent :=
  let previous := s.state
  let s1 := { s with state := stateForQuality s.config s.overallQuality }
  if previous ≠ s1.state then handleStateChange s1 previous s1.state now
  else (s1, [])

/-- `_predictLoss()` (lines 450-462): three or more declining trends while
the quality is below good flags a predicted loss. -/
def predictLossM (s : MonitorState) : MonitorState :=
  let m := s.metrics
  let declining := ([m.landmarkConfidence, m.poseStability, m.reprojectionError,
    m.faceVisibility, m.motionConsistency, m.occlusionLevel].filter
      (fun mm => decide (mm.trend < -(1/100)))).length
  { s with predictedLoss :=
      decide (3 ≤ declining ∧ s.overallQuality < s.config.goodThreshold) }

/-- `_determineRecoveryStrategy()` (lines 511-540).  The per-metric
thresholds are the constructor constants (lines 156-163); the strategy
cascade never returns `NONE`. -/
def determineRecoveryStrategy (s : MonitorState) : RecoveryStrategy :=
  let m := s.metrics
  let confLow := m.landmarkConfidence.current < (3/5 : ℚ)
  let stabLow := m.poseStability.current < (1/2 : ℚ)
  let reprLow := m.reprojectionError.current < (7/10 : ℚ)
  let visLow := m.faceVisibility.current < (7/10 : ℚ)
  if confLow ∧ visLow then .reduceQuality
  else if stabLow then .resetFilters
  else if reprLow then .adjustThresholds
  else if 2 ≤ s.recoveryAttempts then .fullReset
  else .reinit

/-- JavaScript truthiness of the stored `lossStartTime` (`null` and `0` are
falsy). -/
def jsTruthyTime : Option ℚ → Bool
  | Option.none => false
  | some t => decide (t ≠ 0)

/-- `_attemptRecovery()` (lines 467-505): refresh the loss duration (behind
the truthiness test of `lossStartTime`), then gate on minimum dwell,
in-progress flag, attempt budget and cooldown; a fired attempt bumps the
counters and emits the callback. -/
def attemptRecoveryM (s : MonitorState) (now : ℚ) :
    MonitorState × List MonitorEvent :=
  let s1 := if jsTruthyTime s.lossStartTime then
      { s with lossDuration := now - s.lossStartTime.getD 0 }
    else s
  if s1.lossDuration < s1.config.recoveryDelay then (s1, [])
  else if s1.recoveryInProgress then (s1, [])
  else if s1.config.maxRecoveryAttempts ≤ s1.recoveryAttempts then (s1, [])
  else if now - s1.lastRecoveryTime < s1.config.recoveryCooldown then (s1, [])
  else
    let strategy := determineRecoveryStrategy s1
    if strategy = RecoveryStrategy.none then (s1, [])
    else
      let s2 := { s1 with
        recoveryInProgress := true
        recoveryAttempts := s1.recoveryAttempts + 1
        lastRecoveryTime := now }
      (s2, [.recoveryAttempt (s1.recoveryAttempts + 1) strategy])

/-- The bookkeeping prefix of `update(trackingData)` (lines 195-210): frame
count, FPS, metric refresh, overall quality. -/
def preUpdate (hyp3 : ℚ → ℚ → ℚ → ℚ) (s : MonitorState) (d : Option TrackingData)
    (now : ℚ) : MonitorState :=
  let s1 := { s with frameCount := s.frameCount + 1 }
  let s2 := if 0 < s1.lastFrameTime then
      { s1 with fps := 1000 / (now - s1.lastFrameTime) }
    else s1
  let s3 := { s2 with lastFrameTime := now }
  let s4 := { s3 with metrics := updateMetrics hyp3 s3.metrics s3.qualityHistory d }
  { s4 with overallQuality := calculateOverallQuality s4.metrics }

/-- `qualityHistory` push with its 100-entry bound (lines 226-229). -/
def pushQualityHistory (s : MonitorState) : MonitorState :=
  let qh := s.qualityHistory ++ [s.overallQuality]
  { s with qualityHistory := if 100 < qh.length then qh.drop 1 else qh }

/-- `TrackingQualityMonitor.update(trackingData)` (lines 195-232), with
`performance.now()` passed in as `now` and the callbacks returned as an
event list in firing order.  The returned assessment object is a pure
read-out of the state and carries no extra information. -/
def monitorUpdate (hyp3 : ℚ → ℚ → ℚ → ℚ) (s : MonitorState)
    (d : Option TrackingData) (now : ℚ) : MonitorState × List MonitorEvent :=
  let s1 := preUpdate hyp3 s d now
  let r2 := updateStateM s1 now
  let s3 := if r2.1.config.predictionEnabled then predictLossM r2.1 else r2.1
  let r4 := if s3.config.recoveryEnabled ∧ s3.state = TrackState.lost then
      attemptRecoveryM s3 now
    else (s3, [])
  let s5 := pushQualityHistory r4.1
  (s5, r2.2 ++ r4.2)

/-- `recoveryComplete(success)` (lines 546-554). -/
def recoveryCompleteM (s : MonitorState) (success : Bool) : MonitorState :=
  let s1 := { s with recoveryInProgress := false }
  if success then
    { s1 with recoveryAttempts := 0, lossStartTime := Option.none, lossDuration := 0 }
  else s1

/-- An externally visible operation on a monitor instance (a `reset()` is
modelled as starting a fresh execution). -/
inductive MonitorOp where
  | update (d : Option TrackingData) (now : ℚ)
  | recoveryComplete (success : Bool)

/-- One operation applied to the monitor state. -/
def monitorStep (hyp3 : ℚ → ℚ → ℚ → ℚ) (s : MonitorState) :
    MonitorOp → MonitorState × List MonitorEvent
  | .update d now => monitorUpdate hyp3 s d now
  | .recoveryComplete success => (recoveryCompleteM s success, [])

/-- A call sequence applied to the monitor state. -/
def monitorRun (hyp3 : ℚ → ℚ → ℚ → ℚ) (s : MonitorState) :
    List MonitorOp → MonitorState
  | [] => s
  | op :: ops => monitorRun hyp3 (monitorStep hyp3 s op).1 ops

/-- All events fired along a call sequence, in order. -/
def monitorEvents (hyp3 : ℚ → ℚ → ℚ → ℚ) (s : MonitorState) :
    List MonitorOp → List MonitorEvent
  | [] => []
  | op :: ops =>
    (monitorStep hyp3 s op).2 ++ monitorEvents hyp3 (monitorStep hyp3 s op).1 ops

/-- Number of `onTrackingLost` firings in an event list. -/
def lostEventCount (evs : List MonitorEvent) : Nat :=
  (evs.filter (fun e => match e with | .trackingLost => true | _ => false)).length

/-- `_handleStateChange` never touches `state`, `config`, `overallQuality`,
`metrics` or `recoveryInProgress`. -/
theorem handleStateChange_fields (s : MonitorState) (stFrom stTo : TrackState)
    (now : ℚ) :
    (handleStateChange s stFrom stTo now).1.state = s.state ∧
    (handleStateChange s stFrom stTo now).1.config = s.config ∧
    (handleStateChange s stFrom stTo now).1.overallQuality = s.overallQuality ∧
    (handleStateChange s stFrom stTo now).1.metrics = s.metrics ∧
    (handleStateChange s stFrom stTo now).1.recoveryInProgress = s.recoveryInProgress ∧
    (handleStateChange s stFrom stTo now).1.lastRecoveryTime = s.lastRecoveryTime := by
  simp only [handleStateChange]
  split_ifs <;> exact ⟨rfl, rfl, rfl, rfl, rfl, rfl⟩

/-- The state written by `_updateState` is the threshold cascade of the
current overall quality. -/
theorem updateStateM_state (s : MonitorState) (now : ℚ) :
    (updateStateM s now).1.state = stateForQuality s.config s.overallQuality := by
  simp only [updateStateM]
  split_ifs with h
  · exact (handleStateChange_fields _ _ _ _).1
  · rfl

/-- `_predictLoss` only writes `predictedLoss`. -/
theorem predictLossM_state (s : MonitorState) : (predictLossM s).state = s.state := rfl

/-- `_attemptRecovery` never changes the tracking state or configuration. -/
theorem attemptRecoveryM_fields (s : MonitorState) (now : ℚ) :
    (attemptRecoveryM s now).1.state = s.state ∧
    (attemptRecoveryM s now).1.config = s.config ∧
    (attemptRecoveryM s now).1.overallQuality = s.overallQuality ∧
    (attemptRecoveryM s now).1.metrics = s.metrics ∧
    (attemptRecoveryM s now).1.lossStartTime = s.lossStartTime ∧
    (attemptRecoveryM s now).1.qualityHistory = s.qualityHistory := by
  simp only [attemptRecoveryM]
  split_ifs <;> exact ⟨rfl, rfl, rfl, rfl, rfl, rfl⟩

/-- The quality-history push only writes `qualityHistory`. -/
theorem pushQH_state (s : MonitorState) : (pushQualityHistory s).state = s.state := rfl

/-- Field behaviour of the bookkeeping prefix of `update`. -/
theorem preUpdate_fields (hyp3 : ℚ → ℚ → ℚ → ℚ) (s : MonitorState)
    (d : Option TrackingData) (now : ℚ) :
    (preUpdate hyp3 s d now).config = s.config ∧
    (preUpdate hyp3 s d now).state = s.state ∧
    (preUpdate hyp3 s d now).metrics =
      updateMetrics hyp3 s.metrics s.qualityHistory d ∧
    (preUpdate hyp3 s d now).overallQuality =
      calculateOverallQuality (updateMetrics hyp3 s.metrics s.qualityHistory d) ∧
    (preUpdate hyp3 s d now).qualityHistory = s.qualityHistory ∧
    (preUpdate hyp3 s d now).recoveryAttempts = s.recoveryAttempts ∧
    (preUpdate hyp3 s d now).lastRecoveryTime = s.lastRecoveryTime ∧
    (preUpdate hyp3 s d now).recoveryInProgress = s.recoveryInProgress ∧
    (preUpdate hyp3 s d now).lossStartTime = s.lossStartTime ∧
    (preUpdate hyp3 s d now).lossDuration = s.lossDuration := by
  simp only [preUpdate]
  split_ifs <;> exact ⟨rfl, rfl, rfl, rfl, rfl, rfl, rfl, rfl, rfl, rfl⟩

/-- The state after a full `update` call is the threshold cascade of the
freshly computed overall quality. -/
theorem monitorUpdate_state (hyp3 : ℚ → ℚ → ℚ → ℚ) (s : MonitorState)
    (d : Option TrackingData) (now : ℚ) :
    (monitorUpdate hyp3 s d now).1.state = stateForQuality s.config
      (calculateOverallQuality (updateMetrics hyp3 s.metrics s.qualityHistory d)) := by
  simp only [monitorUpdate]
  rw [pushQH_state]
  have h4 : ∀ (c : Prop) [Decidable c] (s3 : MonitorState),
      (if c then attemptRecoveryM s3 now else (s3, ([] : List MonitorEvent))).1.state =
        s3.state := by
    intro c _ s3
    split_ifs
    · exact (attemptRecoveryM_fields s3 now).1
    · rfl
  rw [h4]
  have h3 : ∀ (c : Prop) [Decidable c] (s2 : MonitorState),
      (if c then predictLossM s2 else s2).state = s2.state := by
    intro c _ s2
    split_ifs <;> rfl
  rw [h3, updateStateM_state]
  rw [(preUpdate_fields hyp3 s d now).1,
    (preUpdate_fields hyp3 s d now).2.2.2.1]

/-- Claim C6: the post-update tracking state is a pure function of the
overall quality, compared against the fixed default thresholds with the
boundary included in the higher state; in particular quality exactly 0.75
maps to TRACKING_GOOD. -/
theorem quality_state_thresholds :
    (∀ q : ℚ, 9/10 ≤ q →
      stateForQuality defaultMonitorConfig q = TrackState.trackingExcellent) ∧
    (∀ q : ℚ, 3/4 ≤ q → q < 9/10 →
      stateForQuality defaultMonitorConfig q = TrackState.trackingGood) ∧
    (∀ q : ℚ, 1/2 ≤ q → q < 3/4 →
      stateForQuality defaultMonitorConfig q = TrackState.trackingAcceptable) ∧
    (∀ q : ℚ, 3/10 ≤ q → q < 1/2 →
      stateForQuality defaultMonitorConfig q = TrackState.trackingPoor) ∧
    (∀ q : ℚ, 3/20 ≤ q → q < 3/10 →
      stateForQuality defaultMonitorConfig q = TrackState.recovering) ∧
    (∀ q : ℚ, q < 3/20 →
      stateForQuality defaultMonitorConfig q = TrackState.lost) ∧
    stateForQuality defaultMonitorConfig (3/4) = TrackState.trackingGood ∧
    (∀ (hyp3 : ℚ → ℚ → ℚ → ℚ) (s : MonitorState) (d : Option TrackingData)
      (now : ℚ), (monitorUpdate hyp3 s d now).1.state = stateForQuality s.config
        (calculateOverallQuality (updateMetrics hyp3 s.metrics s.qualityHistory d))) := by
  have hcase : ∀ q : ℚ, ∀ r : TrackState,
      ((9/10 ≤ q ∧ r = .trackingExcellent) ∨
       (¬(9/10 ≤ q) ∧ 3/4 ≤ q ∧ r = .trackingGood) ∨
       (¬(9/10 ≤ q) ∧ ¬(3/4 ≤ q) ∧ 1/2 ≤ q ∧ r = .trackingAcceptable) ∨
       (¬(9/10 ≤ q) ∧ ¬(3/4 ≤ q) ∧ ¬(1/2 ≤ q) ∧ 3/10 ≤ q ∧ r = .trackingPoor) ∨
       (¬(9/10 ≤ q) ∧ ¬(3/4 ≤ q) ∧ ¬(1/2 ≤ q) ∧ ¬(3/10 ≤ q) ∧ 3/20 ≤ q ∧
         r = .recovering) ∨
       (¬(9/10 ≤ q) ∧ ¬(3/4 ≤ q) ∧ ¬(1/2 ≤ q) ∧ ¬(3/10 ≤ q) ∧ ¬(3/20 ≤ q) ∧
         r = .lost)) →
      stateForQuality defaultMonitorConfig q = r := by
    intro q r hr
    simp only [stateForQuality, defaultMonitorConfig]
    rcases hr with ⟨h, rfl⟩ | ⟨h1, h2, rfl⟩ | ⟨h1, h2, h3, rfl⟩ |
      ⟨h1, h2, h3, h4, rfl⟩ | ⟨h1, h2, h3, h4, h5, rfl⟩ | ⟨h1, h2, h3, h4, h5, rfl⟩ <;>
      split_ifs <;> first | rfl | linarith
  refine ⟨?_, ?_, ?_, ?_, ?_, ?_, ?_, monitorUpdate_state⟩
  · intro q h
    exact hcase q _ (Or.inl ⟨h, rfl⟩)
  · intro q h1 h2
    exact hcase q _ (Or.inr (Or.inl ⟨by linarith, h1, rfl⟩))
  · intro q h1 h2
    exact hcase q _ (Or.inr (Or.inr (Or.inl ⟨by linarith, by linarith, h1, rfl⟩)))
  · intro q h1 h2
    exact hcase q _ (Or.inr (Or.inr (Or.inr (Or.inl
      ⟨by linarith, by linarith, by linarith, h1, rfl⟩))))
  · intro q h1 h2
    exact hcase q _ (Or.inr (Or.inr (Or.inr (Or.inr (Or.inl
      ⟨by linarith, by linarith, by linarith, by linarith, h1, rfl⟩)))))
  · intro q h1
    exact hcase q _ (Or.inr (Or.inr (Or.inr (Or.inr (Or.inr
      ⟨by linarith, by linarith, by linarith, by linarith, by linarith, rfl⟩)))))
  · exact hcase (3/4) _ (Or.inr (Or.inl ⟨by norm_num, by norm_num, rfl⟩))

/-- Witness for C6: the boundary quality 0.75 and a sub-critical quality at
the concrete thresholds. -/
theorem quality_state_thresholds_witness :
    stateForQuality defaultMonitorConfig (3/4) = TrackState.trackingGood ∧
    stateForQuality defaultMonitorConfig (1/10) = TrackState.lost ∧
    stateForQuality defaultMonitorConfig (19/20) = TrackState.trackingExcellent := by
  refine ⟨quality_state_thresholds.2.2.2.2.2.2.1, ?_, ?_⟩
  · exact quality_state_thresholds.2.2.2.2.2.1 (1/10) (by norm_num)
  · exact quality_state_thresholds.1 (19/20) (by norm_num)

/-- The `current` field written by a metric update is the supplied value. -/
theorem metricUpdate_current (m : MetricState) (v : ℚ) :
    (metricUpdate m v).current = v := rfl

/-- A data-less update drives the overall quality to zero. -/
theorem overallQuality_none (hyp3 : ℚ → ℚ → ℚ → ℚ) (m : Metrics)
    (qh : List ℚ) :
    calculateOverallQuality (updateMetrics hyp3 m qh Option.none) = 0 := by
  simp only [calculateOverallQuality, updateMetrics, metricUpdate_current,
    totalMetricWeight]
  norm_num

/-- Zero quality maps to the LOST state under the default thresholds. -/
theorem stateForQuality_zero : stateForQuality defaultMonitorConfig 0 = TrackState.lost := by
  simp only [stateForQuality, defaultMonitorConfig]
  split_ifs with h1 h2 h3 h4 h5 <;> first | rfl | linarith

/-- `onTrackingLost` counts add over concatenation. -/
theorem lostEventCount_append (a b : List MonitorEvent) :
    lostEventCount (a ++ b) = lostEventCount a + lostEventCount b := by
  simp [lostEventCount, List.filter_append]

/-- `_attemptRecovery` never fires `onTrackingLost`. -/
theorem attemptRecoveryM_lost_events (s : MonitorState) (now : ℚ) :
    lostEventCount (attemptRecoveryM s now).2 = 0 := by
  simp only [attemptRecoveryM]
  split_ifs <;> rfl

/-- `_handleStateChange` fires `onTrackingLost` exactly on the transition
into LOST. -/
theorem handleStateChange_lost_events (s : MonitorState)
    (stFrom stTo : TrackState) (now : ℚ) :
    lostEventCount (handleStateChange s stFrom stTo now).2 =
      if stTo = TrackState.lost ∧ stFrom ≠ TrackState.lost then 1 else 0 := by
  simp only [handleStateChange]
  split_ifs <;> simp_all [lostEventCount]

/-- `_updateState` fires `onTrackingLost` exactly once when the cascade
enters LOST from another state, and never otherwise. -/
theorem updateStateM_lost_events (s : MonitorState) (now : ℚ)
    (h : stateForQuality s.config s.overallQuality = TrackState.lost) :
    lostEventCount (updateStateM s now).2 =
      if s.state = TrackState.lost then 0 else 1 := by
  simp only [updateStateM, h]
  by_cases hs : s.state = TrackState.lost
  · rw [if_neg (fun hn => hn hs), if_pos hs]
    rfl
  · rw [if_pos hs, handleStateChange_lost_events, if_pos ⟨rfl, hs⟩, if_neg hs]

/-- `update` preserves the configuration. -/
theorem monitorUpdate_config (hyp3 : ℚ → ℚ → ℚ → ℚ) (s : MonitorState)
    (d : Option TrackingData) (now : ℚ) :
    (monitorUpdate hyp3 s d now).1.config = s.config := by
  simp only [monitorUpdate]
  have h4 : ∀ (c : Prop) [Decidable c] (s3 : MonitorState),
      (pushQualityHistory
        (if c then attemptRecoveryM s3 now else (s3, ([] : List MonitorEvent))).1).config =
        s3.config := by
    intro c _ s3
    split_ifs
    · exact (attemptRecoveryM_fields s3 now).2.1
    · rfl
  rw [h4]
  have h3 : ∀ (c : Prop) [Decidable c] (s2 : MonitorState),
      (if c then predictLossM s2 else s2).config = s2.config := by
    intro c _ s2
    split_ifs <;> rfl
  rw [h3]
  have h2 : (updateStateM (preUpdate hyp3 s d now) now).1.config =
      (preUpdate hyp3 s d now).config := by
    simp only [updateStateM]
    split_ifs
    · exact (handleStateChange_fields _ _ _ _).2.1
    · rfl
  rw [h2, (preUpdate_fields hyp3 s d now).1]

/-- When the fresh quality maps to LOST, a full `update` call fires
`onTrackingLost` exactly on the transition into LOST and not while LOST
persists. -/
theorem monitorUpdate_lost_events (hyp3 : ℚ → ℚ → ℚ → ℚ) (s : MonitorState)
    (d : Option TrackingData) (now : ℚ)
    (h : stateForQuality s.config
      (calculateOverallQuality (updateMetrics hyp3 s.metrics s.qualityHistory d)) =
      TrackState.lost) :
    lostEventCount (monitorUpdate hyp3 s d now).2 =
      if s.state = TrackState.lost then 0 else 1 := by
  simp only [monitorUpdate]
  rw [lostEventCount_append]
  have h4 : ∀ (c : Prop) [Decidable c] (s3 : MonitorState),
      lostEventCount
        (if c then attemptRecoveryM s3 now else (s3, ([] : List MonitorEvent))).2 = 0 := by
    intro c _ s3
    split_ifs
    · exact attemptRecoveryM_lost_events s3 now
    · rfl
  rw [h4]
  have h1 : stateForQuality (preUpdate hyp3 s d now).config
      (preUpdate hyp3 s d now).overallQuality = TrackState.lost := by
    rw [(preUpdate_fields hyp3 s d now).1, (preUpdate_fields hyp3 s d now).2.2.2.1]
    exact h
  rw [updateStateM_lost_events _ now h1, (preUpdate_fields hyp3 s d now).2.1]
  omega

/-- From a LOST state with the default configuration, data-less updates keep
the monitor in LOST and never fire `onTrackingLost` again. -/
theorem lost_stays (hyp3 : ℚ → ℚ → ℚ → ℚ) :
    ∀ (ts : List ℚ) (s : MonitorState),
      s.config = defaultMonitorConfig → s.state = TrackState.lost →
      (monitorRun hyp3 s (ts.map (fun t => MonitorOp.update Option.none t))).state =
        TrackState.lost ∧
      lostEventCount (monitorEvents hyp3 s
        (ts.map (fun t => MonitorOp.update Option.none t))) = 0 := by
  intro ts
  induction ts with
  | nil => intro s hc hs; exact ⟨hs, rfl⟩
  | cons t ts ih =>
    intro s hc hs
    have hq : stateForQuality s.config
        (calculateOverallQuality (updateMetrics hyp3 s.metrics s.qualityHistory
          Option.none)) = TrackState.lost := by
      rw [overallQuality_none, hc]
      exact stateForQuality_zero
    have hstate : (monitorUpdate hyp3 s Option.none t).1.state = TrackState.lost := by
      rw [monitorUpdate_state, hq]
    have hcfg : (monitorUpdate hyp3 s Option.none t).1.config = defaultMonitorConfig := by
      rw [monitorUpdate_config, hc]
    have hev : lostEventCount (monitorUpdate hyp3 s Option.none t).2 = 0 := by
      rw [monitorUpdate_lost_events hyp3 s Option.none t hq, if_pos hs]
    simp only [List.map_cons, monitorRun, monitorEvents, monitorStep]
    obtain ⟨ih1, ih2⟩ := ih (monitorUpdate hyp3 s Option.none t).1 hcfg hstate
    refine ⟨ih1, ?_⟩
    rw [lostEventCount_append, hev, ih2]

/-- Claim C7: with tracking data absent for 10 consecutive frames starting
from TRACKING_GOOD (default configuration), the monitor is in LOST within
those frames — in fact from the first absent frame on — and `onTrackingLost`
fires exactly once over the whole sequence. -/
theorem lost_callback_fires_once (hyp3 : ℚ → ℚ → ℚ → ℚ) (s0 : MonitorState)
    (ts : List ℚ) (hcfg : s0.config = defaultMonitorConfig)
    (hstate : s0.state = TrackState.trackingGood) (hlen : ts.length = 10) :
    (monitorRun hyp3 s0 (ts.map (fun t => MonitorOp.update Option.none t))).state =
      TrackState.lost ∧
    lostEventCount (monitorEvents hyp3 s0
      (ts.map (fun t => MonitorOp.update Option.none t))) = 1 ∧
    (∀ k, 1 ≤ k →
      (monitorRun hyp3 s0
        ((ts.map (fun t => MonitorOp.update Option.none t)).take k)).state =
        TrackState.lost) := by
  cases ts with
  | nil => simp at hlen
  | cons t ts =>
    have hq : stateForQuality s0.config
        (calculateOverallQuality (updateMetrics hyp3 s0.metrics s0.qualityHistory
          Option.none)) = TrackState.lost := by
      rw [overallQuality_none, hcfg]
      exact stateForQuality_zero
    have hstate1 : (monitorUpdate hyp3 s0 Option.none t).1.state = TrackState.lost := by
      rw [monitorUpdate_state, hq]
    have hcfg1 : (monitorUpdate hyp3 s0 Option.none t).1.config =
        defaultMonitorConfig := by
      rw [monitorUpdate_config, hcfg]
    have hev1 : lostEventCount (monitorUpdate hyp3 s0 Option.none t).2 = 1 := by
      rw [monitorUpdate_lost_events hyp3 s0 Option.none t hq,
        if_neg (by rw [hstate]; intro hcontra; exact TrackState.noConfusion hcontra)]
    obtain ⟨h1, h2⟩ := lost_stays hyp3 ts (monitorUpdate hyp3 s0 Option.none t).1
      hcfg1 hstate1
    refine ⟨?_, ?_, ?_⟩
    · simpa only [List.map_cons, monitorRun, monitorStep] using h1
    · simp only [List.map_cons, monitorEvents, monitorStep]
      rw [lostEventCount_append, hev1, h2]
    · intro k hk
      obtain ⟨k', rfl⟩ : ∃ k', k = k' + 1 := ⟨k - 1, by omega⟩
      simp only [List.map_cons, List.take_succ_cons, monitorRun, monitorStep]
      rw [← List.map_take]
      exact (lost_stays hyp3 (ts.take k') (monitorUpdate hyp3 s0 Option.none t).1
        hcfg1 hstate1).1

/-- Concrete starting state for the C7 witness: a fresh monitor moved to
TRACKING_GOOD. -/
def c7start : MonitorState :=
  { initMonitor defaultMonitorConfig with state := TrackState.trackingGood }

/-- Concrete timestamps for the C7 witness. -/
def c7times : List ℚ := [1, 2, 3, 4, 5, 6, 7, 8, 9, 10]

/-- Witness for C7: ten concrete data-less frames from TRACKING_GOOD end in
LOST, fire `onTrackingLost` exactly once, and are already LOST after the
first frame. -/
theorem lost_callback_fires_once_witness :
    (monitorRun (fun _ _ _ => 0) c7start
      (c7times.map (fun t => MonitorOp.update Option.none t))).state =
      TrackState.lost ∧
    lostEventCount (monitorEvents (fun _ _ _ => 0) c7start
      (c7times.map (fun t => MonitorOp.update Option.none t))) = 1 ∧
    (monitorRun (fun _ _ _ => 0) c7start
      ((c7times.map (fun t => MonitorOp.update Option.none t)).take 1)).state =
      TrackState.lost := by
  obtain ⟨h1, h2, h3⟩ := lost_callback_fires_once (fun _ _ _ => 0) c7start c7times
    rfl rfl rfl
  exact ⟨h1, h2, h3 1 (by omega)⟩

/-- Whether an event is an `onRecoveryAttempt` firing. -/
def isAttemptEvent : MonitorEvent → Bool
  | .recoveryAttempt _ _ => true
  | _ => false

/-- Whether an event is an `onTrackingRecovered` firing. -/
def isRecoveredEvent : MonitorEvent → Bool
  | .trackingRecovered => true
  | _ => false

/-- The `performance.now()` reading of an operation (a `recoveryComplete`
call reads no clock). -/
def opTime : MonitorOp → ℚ
  | .update _ now => now
  | .recoveryComplete _ => 0

/-- The timestamps at which recovery attempts fire along a call sequence. -/
def attemptTimes (hyp3 : ℚ → ℚ → ℚ → ℚ) (s : MonitorState) :
    List MonitorOp → List ℚ
  | [] => []
  | op :: ops =>
    ((monitorStep hyp3 s op).2.filter isAttemptEvent).map (fun _ => opTime op) ++
      attemptTimes hyp3 (monitorStep hyp3 s op).1 ops

/-- Whether a step constitutes an "intervening recovery": a
`recoveryComplete(true)` acknowledgement, or an `onTrackingRecovered`
transition out of LOST. -/
def stepResets (op : MonitorOp) (evs : List MonitorEvent) : Bool :=
  evs.any isRecoveredEvent ||
    (match op with | .recoveryComplete true => true | _ => false)

/-- The running count of recovery attempts since the last intervening
recovery, read off the operation/event stream. -/
def attemptsSinceRecovery (hyp3 : ℚ → ℚ → ℚ → ℚ) (s : MonitorState) (c : Nat) :
    List MonitorOp → Nat
  | [] => c
  | op :: ops =>
    let r := monitorStep hyp3 s op
    let c' := if stepResets op r.2 then 0 else c + (r.2.filter isAttemptEvent).length
    attemptsSinceRecovery hyp3 r.1 c' ops

/-- Event and field characterisation of `_handleStateChange`: it fires no
recovery attempts, fires `onTrackingRecovered` exactly on leaving LOST,
zeroes the attempt counter exactly then, and stamps/clears the loss clock. -/
theorem handleStateChange_char (s : MonitorState) (stFrom stTo : TrackState)
    (now : ℚ) :
    (handleStateChange s stFrom stTo now).2.filter isAttemptEvent = [] ∧
    (handleStateChange s stFrom stTo now).2.any isRecoveredEvent =
      decide (stFrom = TrackState.lost ∧ stTo ≠ TrackState.lost) ∧
    (handleStateChange s stFrom stTo now).1.recoveryAttempts =
      (if stFrom = TrackState.lost ∧ stTo ≠ TrackState.lost then 0
       else s.recoveryAttempts) ∧
    (handleStateChange s stFrom stTo now).1.lossStartTime =
      (if stTo = TrackState.lost ∧ stFrom ≠ TrackState.lost then some now
       else if stFrom = TrackState.lost ∧ stTo ≠ TrackState.lost then Option.none
       else s.lossStartTime) ∧
    (handleStateChange s stFrom stTo now).1.lossDuration =
      (if stFrom = TrackState.lost ∧ stTo ≠ TrackState.lost then 0
       else s.lossDuration) := by
  simp only [handleStateChange]
  split_ifs with h1 h2 h2 <;>
    simp_all [isAttemptEvent, isRecoveredEvent, List.filter_append, List.any_append]

/-- Field and event characterisation of `_updateState`: it fires no recovery
attempts, fires `onTrackingRecovered` exactly on leaving LOST, and manages
the loss bookkeeping accordingly. -/
theorem updateStateM_char (s : MonitorState) (now : ℚ) :
    (updateStateM s now).1.config = s.config ∧
    (updateStateM s now).1.lastRecoveryTime = s.lastRecoveryTime ∧
    (updateStateM s now).1.recoveryInProgress = s.recoveryInProgress ∧
    (updateStateM s now).2.filter isAttemptEvent = [] ∧
    (updateStateM s now).2.any isRecoveredEvent =
      decide (s.state = TrackState.lost ∧
        stateForQuality s.config s.overallQuality ≠ TrackState.lost) ∧
    (updateStateM s now).1.recoveryAttempts =
      (if s.state = TrackState.lost ∧
          stateForQuality s.config s.overallQuality ≠ TrackState.lost then 0
       else s.recoveryAttempts) ∧
    (updateStateM s now).1.lossStartTime =
      (if stateForQuality s.config s.overallQuality = TrackState.lost ∧
          s.state ≠ TrackState.lost then some now
       else if s.state = TrackState.lost ∧
          stateForQuality s.config s.overallQuality ≠ TrackState.lost then Option.none
       else s.lossStartTime) ∧
    (updateStateM s now).1.lossDuration =
      (if s.state = TrackState.lost ∧
          stateForQuality s.config s.overallQuality ≠ TrackState.lost then 0
       else s.lossDuration) := by
  simp only [updateStateM]
  by_cases hne : s.state ≠ stateForQuality s.config s.overallQuality
  · rw [if_pos (by simpa using hne)]
    obtain ⟨hf, ha, hr, hls, hld⟩ := handleStateChange_char
      { s with state := stateForQuality s.config s.overallQuality } s.state
      (stateForQuality s.config s.overallQuality) now
    exact ⟨(handleStateChange_fields _ _ _ _).2.1,
      (handleStateChange_fields _ _ _ _).2.2.2.2.2,
      (handleStateChange_fields _ _ _ _).2.2.2.2.1, hf, ha, hr, hls, hld⟩
  · rw [if_neg (by simpa using hne)]
    rw [not_ne_iff] at hne
    have hfalse : ¬(s.state = TrackState.lost ∧
        stateForQuality s.config s.overallQuality ≠ TrackState.lost) := by
      rintro ⟨h1, h2⟩
      exact h2 (hne ▸ h1)
    have hfalse2 : ¬(stateForQuality s.config s.overallQuality = TrackState.lost ∧
        s.state ≠ TrackState.lost) := by
      rintro ⟨h1, h2⟩
      exact h2 (hne.symm ▸ h1)
    refine ⟨rfl, rfl, rfl, rfl, ?_, ?_, ?_, ?_⟩
    · simp [hfalse]
    · rw [if_neg hfalse]
    · rw [if_neg hfalse2, if_neg hfalse]
    · rw [if_neg hfalse]

/-- The quality-history push touches nothing but `qualityHistory`. -/
theorem pushQH_fields (s : MonitorState) :
    (pushQualityHistory s).config = s.config ∧
    (pushQualityHistory s).lastRecoveryTime = s.lastRecoveryTime ∧
    (pushQualityHistory s).recoveryAttempts = s.recoveryAttempts ∧
    (pushQualityHistory s).recoveryInProgress = s.recoveryInProgress ∧
    (pushQualityHistory s).lossStartTime = s.lossStartTime ∧
    (pushQualityHistory s).lossDuration = s.lossDuration ∧
    (pushQualityHistory s).state = s.state :=
  ⟨rfl, rfl, rfl, rfl, rfl, rfl, rfl⟩

/-- `_predictLoss` touches nothing but `predictedLoss`. -/
theorem predictLossM_fields (s : MonitorState) :
    (predictLossM s).config = s.config ∧
    (predictLossM s).lastRecoveryTime = s.lastRecoveryTime ∧
    (predictLossM s).recoveryAttempts = s.recoveryAttempts ∧
    (predictLossM s).recoveryInProgress = s.recoveryInProgress ∧
    (predictLossM s).lossStartTime = s.lossStartTime ∧
    (predictLossM s).lossDuration = s.lossDuration ∧
    (predictLossM s).state = s.state :=
  ⟨rfl, rfl, rfl, rfl, rfl, rfl, rfl⟩

/-- Case characterisation of `_attemptRecovery`: either nothing fires and the
attempt bookkeeping is untouched, or exactly one attempt fires, bumping the
counter (which was under budget), stamping the attempt time after a full
cooldown, and only after the minimal dwell. -/
theorem attemptRecoveryM_char (s : MonitorState) (now : ℚ) :
    ((attemptRecoveryM s now).2 = [] ∧
      (attemptRecoveryM s now).1.lastRecoveryTime = s.lastRecoveryTime ∧
      (attemptRecoveryM s now).1.recoveryAttempts = s.recoveryAttempts ∧
      (attemptRecoveryM s now).1.recoveryInProgress = s.recoveryInProgress) ∨
    ((∃ strat, (attemptRecoveryM s now).2 =
        [MonitorEvent.recoveryAttempt (s.recoveryAttempts + 1) strat]) ∧
      (attemptRecoveryM s now).1.lastRecoveryTime = now ∧
      (attemptRecoveryM s now).1.recoveryAttempts = s.recoveryAttempts + 1 ∧
      (attemptRecoveryM s now).1.recoveryInProgress = true ∧
      s.recoveryAttempts < s.config.maxRecoveryAttempts ∧
      s.config.recoveryCooldown ≤ now - s.lastRecoveryTime ∧
      s.config.recoveryDelay ≤
        (if jsTruthyTime s.lossStartTime then now - s.lossStartTime.getD 0
         else s.lossDuration)) := by
  simp only [attemptRecoveryM]
  by_cases ht : jsTruthyTime s.lossStartTime
  · rw [if_pos ht] at *
    rw [if_pos ht]
    split_ifs with h1 h2 h3 h4 h5
    · exact Or.inl ⟨rfl, rfl, rfl, rfl⟩
    · exact Or.inl ⟨rfl, rfl, rfl, rfl⟩
    · exact Or.inl ⟨rfl, rfl, rfl, rfl⟩
    · exact Or.inl ⟨rfl, rfl, rfl, rfl⟩
    · exact Or.inl ⟨rfl, rfl, rfl, rfl⟩
    · dsimp only at h1 h3 h4
      exact Or.inr ⟨⟨_, rfl⟩, rfl, rfl, rfl, by omega, by linarith, by linarith⟩
  · rw [if_neg ht] at *
    rw [if_neg ht]
    split_ifs with h1 h2 h3 h4 h5
    · exact Or.inl ⟨rfl, rfl, rfl, rfl⟩
    · exact Or.inl ⟨rfl, rfl, rfl, rfl⟩
    · exact Or.inl ⟨rfl, rfl, rfl, rfl⟩
    · exact Or.inl ⟨rfl, rfl, rfl, rfl⟩
    · exact Or.inl ⟨rfl, rfl, rfl, rfl⟩
    · exact Or.inr ⟨⟨_, rfl⟩, rfl, rfl, rfl, by omega, by linarith, by linarith⟩

/-- The prediction stage of `update` preserves every field we track. -/
theorem predictIf_fields (c : Prop) [Decidable c] (s : MonitorState) :
    (if c then predictLossM s else s).config = s.config ∧
    (if c then predictLossM s else s).state = s.state ∧
    (if c then predictLossM s else s).lossStartTime = s.lossStartTime ∧
    (if c then predictLossM s else s).lossDuration = s.lossDuration ∧
    (if c then predictLossM s else s).recoveryAttempts = s.recoveryAttempts ∧
    (if c then predictLossM s else s).lastRecoveryTime = s.lastRecoveryTime ∧
    (if c then predictLossM s else s).recoveryInProgress = s.recoveryInProgress := by
  split_ifs <;> exact ⟨rfl, rfl, rfl, rfl, rfl, rfl, rfl⟩

/-- `_attemptRecovery` leaves `lossDuration` exactly as its refresh step
computed it. -/
theorem attemptRecoveryM_lossDuration (s : MonitorState) (now : ℚ) :
    (attemptRecoveryM s now).1.lossDuration =
      (if jsTruthyTime s.lossStartTime then now - s.lossStartTime.getD 0
       else s.lossDuration) := by
  simp only [attemptRecoveryM]
  by_cases ht : jsTruthyTime s.lossStartTime
  · simp only [if_pos ht]
    split_ifs <;> rfl
  · simp only [if_neg ht]
    split_ifs <;> rfl

/-- Field behaviour of `recoveryComplete(success)`. -/
theorem recoveryCompleteM_char (s : MonitorState) (b : Bool) :
    (recoveryCompleteM s b).config = s.config ∧
    (recoveryCompleteM s b).state = s.state ∧
    (recoveryCompleteM s b).lastRecoveryTime = s.lastRecoveryTime ∧
    (recoveryCompleteM s b).recoveryAttempts =
      (if b then 0 else s.recoveryAttempts) ∧
    (recoveryCompleteM s b).lossStartTime =
      (if b then Option.none else s.lossStartTime) ∧
    (recoveryCompleteM s b).lossDuration = (if b then 0 else s.lossDuration) := by
  simp only [recoveryCompleteM]
  cases b <;> exact ⟨rfl, rfl, rfl, rfl, rfl, rfl⟩

/-- Running a concatenated call sequence runs the pieces in order. -/
theorem monitorRun_append (hyp3 : ℚ → ℚ → ℚ → ℚ) (s : MonitorState)
    (p q : List MonitorOp) :
    monitorRun hyp3 s (p ++ q) = monitorRun hyp3 (monitorRun hyp3 s p) q := by
  induction p generalizing s with
  | nil => rfl
  | cons op ops ih => simp only [List.cons_append, monitorRun]; exact ih _

/-- The reachable-state invariant used for the recovery-gating analysis: the
default configuration is in force, a falsy `lossStartTime` comes with a zero
accumulated loss duration, a non-LOST state comes with a zero loss duration,
and a stamped `lossStartTime` means the state is LOST. -/
def monitorSane (s : MonitorState) : Prop :=
  s.config = defaultMonitorConfig ∧
  (jsTruthyTime s.lossStartTime = false → s.lossDuration = 0) ∧
  (s.state ≠ TrackState.lost → s.lossDuration = 0) ∧
  (∀ t0, s.lossStartTime = some t0 → s.state = TrackState.lost)

/-- A fresh monitor satisfies the invariant. -/
theorem monitorSane_init : monitorSane (initMonitor defaultMonitorConfig) :=
  ⟨rfl, fun _ => rfl, fun _ => rfl, fun _ h => Option.noConfusion h⟩

/-- The freshly computed overall quality of one `update` call. -/
def postQuality (hyp3 : ℚ → ℚ → ℚ → ℚ) (s : MonitorState)
    (d : Option TrackingData) : ℚ :=
  calculateOverallQuality (updateMetrics hyp3 s.metrics s.qualityHistory d)

/-- Master characterisation of one `update(trackingData)` call from a sane
state: the resulting state/loss bookkeeping, the attempt counter as a
function of the fired events, and the attempt dichotomy — either no
recovery attempt fires and `lastRecoveryTime` is untouched, or exactly one
fires, stamped at the call time, after at least the 500 ms dwell since the
stamped loss start, under the 3-attempt budget and at least 2000 ms after
the previous stamp.  The two final conjuncts re-establish the sanity
invariant. -/
theorem monitorUpdate_main (hyp3 : ℚ → ℚ → ℚ → ℚ) (s : MonitorState)
    (d : Option TrackingData) (t : ℚ)
    (hcfg : s.config = defaultMonitorConfig)
    (hj : jsTruthyTime s.lossStartTime = false → s.lossDuration = 0)
    (hl : s.state ≠ TrackState.lost → s.lossDuration = 0)
    (hsi : ∀ t0, s.lossStartTime = some t0 → s.state = TrackState.lost) :
    (monitorUpdate hyp3 s d t).1.state =
      stateForQuality s.config (postQuality hyp3 s d) ∧
    (monitorUpdate hyp3 s d t).1.lossStartTime =
      (if stateForQuality s.config (postQuality hyp3 s d) = TrackState.lost ∧
          s.state ≠ TrackState.lost then some t
       else if s.state = TrackState.lost ∧
          stateForQuality s.config (postQuality hyp3 s d) ≠ TrackState.lost then
            Option.none
       else s.lossStartTime) ∧
    (monitorUpdate hyp3 s d t).1.recoveryAttempts =
      (if (monitorUpdate hyp3 s d t).2.any isRecoveredEvent then 0
       else s.recoveryAttempts +
         ((monitorUpdate hyp3 s d t).2.filter isAttemptEvent).length) ∧
    (((monitorUpdate hyp3 s d t).2.filter isAttemptEvent = [] ∧
       (monitorUpdate hyp3 s d t).1.lastRecoveryTime = s.lastRecoveryTime) ∨
     (∃ t0 strat, (monitorUpdate hyp3 s d t).2.filter isAttemptEvent =
         [MonitorEvent.recoveryAttempt (s.recoveryAttempts + 1) strat] ∧
       (monitorUpdate hyp3 s d t).1.lastRecoveryTime = t ∧
       s.lossStartTime = some t0 ∧ t0 + 500 ≤ t ∧
       s.state = TrackState.lost ∧
       stateForQuality s.config (postQuality hyp3 s d) = TrackState.lost ∧
       s.recoveryAttempts < 3 ∧ s.lastRecoveryTime + 2000 ≤ t)) ∧
    (jsTruthyTime (monitorUpdate hyp3 s d t).1.lossStartTime = false →
      (monitorUpdate hyp3 s d t).1.lossDuration = 0) ∧
    ((monitorUpdate hyp3 s d t).1.state ≠ TrackState.lost →
      (monitorUpdate hyp3 s d t).1.lossDuration = 0) := by
  obtain ⟨r2, hr2⟩ : ∃ r2, updateStateM (preUpdate hyp3 s d t) t = r2 := ⟨_, rfl⟩
  obtain ⟨s3, hs3⟩ : ∃ s3,
      (if r2.1.config.predictionEnabled then predictLossM r2.1 else r2.1) = s3 :=
    ⟨_, rfl⟩
  obtain ⟨r4, hr4⟩ : ∃ r4,
      (if s3.config.recoveryEnabled ∧ s3.state = TrackState.lost then
        attemptRecoveryM s3 t
      else (s3, ([] : List MonitorEvent))) = r4 := ⟨_, rfl⟩
  have hP : monitorUpdate hyp3 s d t = (pushQualityHistory r4.1, r2.2 ++ r4.2) := by
    rw [← hr4, ← hs3, ← hr2]; rfl
  obtain ⟨h1c, h1st, h1m, h1q, h1qh, h1ra, h1lrt, h1rip, h1ls, h1ld⟩ :=
    preUpdate_fields hyp3 s d t
  have h2 := updateStateM_char (preUpdate hyp3 s d t) t
  have h2st := updateStateM_state (preUpdate hyp3 s d t) t
  rw [hr2] at h2 h2st
  simp only [h1c, h1q, h1st, h1ra, h1lrt, h1rip, h1ls, h1ld] at h2 h2st
  obtain ⟨h2c, h2lrt, h2rip, h2fa, h2rec, h2ra, h2ls, h2ld⟩ := h2
  have h3all : s3.config = r2.1.config ∧ s3.state = r2.1.state ∧
      s3.lossStartTime = r2.1.lossStartTime ∧
      s3.lossDuration = r2.1.lossDuration ∧
      s3.recoveryAttempts = r2.1.recoveryAttempts ∧
      s3.lastRecoveryTime = r2.1.lastRecoveryTime ∧
      s3.recoveryInProgress = r2.1.recoveryInProgress := by
    rw [← hs3]; exact predictIf_fields _ _
  obtain ⟨h3c, h3st, h3ls, h3ld, h3ra, h3lrt, h3rip⟩ := h3all
  have hs3cfg : s3.config = defaultMonitorConfig := by rw [h3c, h2c, hcfg]
  have hs3st : s3.state = stateForQuality s.config
      (calculateOverallQuality (updateMetrics hyp3 s.metrics s.qualityHistory d)) := by
    rw [h3st, h2st]
  have hr4st : r4.1.state = s3.state := by
    rw [← hr4]; split_ifs
    · exact (attemptRecoveryM_fields _ _).1
    · rfl
  have hr4ls : r4.1.lossStartTime = s3.lossStartTime := by
    rw [← hr4]; split_ifs
    · exact (attemptRecoveryM_fields _ _).2.2.2.2.1
    · rfl
  simp only [postQuality, hP]
  have hQpush := pushQH_fields r4.1
  obtain ⟨hp_c, hp_lrt, hp_ra, hp_rip, hp_ls, hp_ld, hp_st⟩ := hQpush
  have hPstate : (pushQualityHistory r4.1, r2.2 ++ r4.2).1.state =
      stateForQuality s.config
        (calculateOverallQuality (updateMetrics hyp3 s.metrics s.qualityHistory d)) := by
    show (pushQualityHistory r4.1).state = _
    rw [hp_st, hr4st, hs3st]
  have hPls : (pushQualityHistory r4.1, r2.2 ++ r4.2).1.lossStartTime =
      (if stateForQuality s.config
            (calculateOverallQuality (updateMetrics hyp3 s.metrics s.qualityHistory d)) =
          TrackState.lost ∧ s.state ≠ TrackState.lost then some t
       else if s.state = TrackState.lost ∧
          stateForQuality s.config
            (calculateOverallQuality (updateMetrics hyp3 s.metrics s.qualityHistory d)) ≠
            TrackState.lost then Option.none
       else s.lossStartTime) := by
    show (pushQualityHistory r4.1).lossStartTime = _
    rw [hp_ls, hr4ls, h3ls, h2ls]
  refine ⟨hPstate, hPls, ?_⟩
  by_cases hst : stateForQuality s.config
      (calculateOverallQuality (updateMetrics hyp3 s.metrics s.qualityHistory d)) =
      TrackState.lost
  · -- post-state LOST: the recovery stage runs
    have hnl : ¬(s.state = TrackState.lost ∧
        stateForQuality s.config
          (calculateOverallQuality (updateMetrics hyp3 s.metrics s.qualityHistory d)) ≠
          TrackState.lost) := fun h => h.2 hst
    have hr4' : r4 = attemptRecoveryM s3 t := by
      rw [← hr4, if_pos ⟨by rw [hs3cfg]; rfl, by rw [hs3st]; exact hst⟩]
    have h2ra' : r2.1.recoveryAttempts = s.recoveryAttempts := by
      rw [h2ra, if_neg hnl]
    have h2ld' : r2.1.lossDuration = s.lossDuration := by rw [h2ld, if_neg hnl]
    have h2rec' : r2.2.any isRecoveredEvent = false := by
      rw [h2rec, decide_eq_false hnl]
    have hchar := attemptRecoveryM_char s3 t
    have hld4 := attemptRecoveryM_lossDuration s3 t
    rw [← hr4'] at hchar hld4
    by_cases hlv : s.state = TrackState.lost
    · -- staying in LOST: lossStartTime was preserved
      have h2ls' : r2.1.lossStartTime = s.lossStartTime := by
        rw [h2ls, if_neg (fun h => h.2 hlv), if_neg hnl]
      rcases hchar with ⟨hev, hlrt4, hra4, hrip4⟩ |
        ⟨⟨strat, hev⟩, hlrt4, hra4, hrip4, hmax4, hcool4, hdelay4⟩
      · -- no attempt fired
        refine ⟨?_, Or.inl ⟨?_, ?_⟩, ?_, ?_⟩
        · show (pushQualityHistory r4.1).recoveryAttempts =
            (if (r2.2 ++ r4.2).any isRecoveredEvent then 0
             else s.recoveryAttempts + ((r2.2 ++ r4.2).filter isAttemptEvent).length)
          rw [hp_ra, hra4, h3ra, h2ra', List.any_append, h2rec', hev,
            List.filter_append, h2fa]
          simp [isAttemptEvent]
        · show (r2.2 ++ r4.2).filter isAttemptEvent = []
          rw [List.filter_append, h2fa, hev]; rfl
        · show (pushQualityHistory r4.1).lastRecoveryTime = s.lastRecoveryTime
          rw [hp_lrt, hlrt4, h3lrt, h2lrt]
        · intro hfalse
          rw [hPls, if_neg (fun h => h.2 hlv), if_neg hnl] at hfalse
          show (pushQualityHistory r4.1).lossDuration = 0
          rw [hp_ld, hld4, h3ls, h2ls', if_neg (by rw [hfalse]; simp), h3ld, h2ld']
          exact hj hfalse
        · intro hfalse
          rw [hPstate] at hfalse
          exact absurd hst hfalse
      · -- an attempt fired
        have htr : jsTruthyTime s.lossStartTime = true := by
          by_contra htr'
          have htr'' : jsTruthyTime s.lossStartTime = false :=
            Bool.eq_false_iff.mpr (fun h => htr' h)
          rw [h3ls, h2ls', if_neg (by rw [htr'']; simp), h3ld, h2ld', hj htr'',
            hs3cfg] at hdelay4
          norm_num [defaultMonitorConfig] at hdelay4
        obtain ⟨t0, ht0⟩ : ∃ t0, s.lossStartTime = some t0 := by
          cases hx : s.lossStartTime with
          | none => rw [hx] at htr; exact absurd htr (by simp [jsTruthyTime])
          | some t0 => exact ⟨t0, rfl⟩
        have hdwell : t0 + 500 ≤ t := by
          rw [h3ls, h2ls', ht0, hs3cfg] at hdelay4
          rw [ht0] at htr
          rw [if_pos htr] at hdelay4
          have : defaultMonitorConfig.recoveryDelay = 500 := rfl
          rw [this] at hdelay4
          simp only [Option.getD_some] at hdelay4
          linarith
        refine ⟨?_, Or.inr ⟨t0, strat, ?_, ?_, ht0, hdwell, hlv, hst, ?_, ?_⟩, ?_, ?_⟩
        · show (pushQualityHistory r4.1).recoveryAttempts =
            (if (r2.2 ++ r4.2).any isRecoveredEvent then 0
             else s.recoveryAttempts + ((r2.2 ++ r4.2).filter isAttemptEvent).length)
          rw [hp_ra, hra4, h3ra, h2ra', List.any_append, h2rec', hev,
            List.filter_append, h2fa]
          simp [isAttemptEvent, isRecoveredEvent]
        · show (r2.2 ++ r4.2).filter isAttemptEvent = _
          rw [List.filter_append, h2fa, hev, h3ra, h2ra']
          simp [isAttemptEvent]
        · show (pushQualityHistory r4.1).lastRecoveryTime = t
          rw [hp_lrt, hlrt4]
        · have := hmax4
          rw [h3ra, h2ra', hs3cfg] at this
          exact this
        · have := hcool4
          rw [h3lrt, h2lrt, hs3cfg] at this
          have h2k : defaultMonitorConfig.recoveryCooldown = 2000 := rfl
          rw [h2k] at this
          linarith
        · intro hfalse
          rw [hPls, if_neg (fun h => h.2 hlv), if_neg hnl, ht0] at hfalse
          rw [ht0] at htr
          rw [htr] at hfalse
          exact absurd hfalse (by simp)
        · intro hfalse
          rw [hPstate] at hfalse
          exact absurd hst hfalse
    · -- entering LOST on this very call: no attempt can fire
      have h2ls' : r2.1.lossStartTime = some t := by
        rw [h2ls, if_pos ⟨hst, hlv⟩]
      have hld0 : s.lossDuration = 0 := hl hlv
      rcases hchar with ⟨hev, hlrt4, hra4, hrip4⟩ |
        ⟨⟨strat, hev⟩, hlrt4, hra4, hrip4, hmax4, hcool4, hdelay4⟩
      · refine ⟨?_, Or.inl ⟨?_, ?_⟩, ?_, ?_⟩
        · show (pushQualityHistory r4.1).recoveryAttempts =
            (if (r2.2 ++ r4.2).any isRecoveredEvent then 0
             else s.recoveryAttempts + ((r2.2 ++ r4.2).filter isAttemptEvent).length)
          rw [hp_ra, hra4, h3ra, h2ra', List.any_append, h2rec', hev,
            List.filter_append, h2fa]
          simp [isAttemptEvent]
        · show (r2.2 ++ r4.2).filter isAttemptEvent = []
          rw [List.filter_append, h2fa, hev]; rfl
        · show (pushQualityHistory r4.1).lastRecoveryTime = s.lastRecoveryTime
          rw [hp_lrt, hlrt4, h3lrt, h2lrt]
        · intro hfalse
          rw [hPls, if_pos ⟨hst, hlv⟩] at hfalse
          show (pushQualityHistory r4.1).lossDuration = 0
          rw [hp_ld, hld4, h3ls, h2ls', if_neg (by rw [hfalse]; simp), h3ld, h2ld']
          exact hld0
        · intro hfalse
          rw [hPstate] at hfalse
          exact absurd hst hfalse
      · -- attempt from a fresh entry is impossible: dwell is zero
        exfalso
        rw [h3ls, h2ls', hs3cfg] at hdelay4
        have hdel : defaultMonitorConfig.recoveryDelay = 500 := rfl
        rw [hdel] at hdelay4
        by_cases htz : t = 0
        · rw [htz] at hdelay4
          have : jsTruthyTime (some (0 : ℚ)) = false := by simp [jsTruthyTime]
          rw [if_neg (by rw [this]; simp), h3ld, h2ld', hld0] at hdelay4
          norm_num at hdelay4
        · have : jsTruthyTime (some t) = true := by simp [jsTruthyTime, htz]
          rw [if_pos this] at hdelay4
          simp only [Option.getD_some] at hdelay4
          linarith
  · -- post-state not LOST: the recovery stage is skipped
    have hr4' : r4 = (s3, []) := by
      rw [← hr4, if_neg]
      rintro ⟨-, h⟩
      rw [hs3st] at h
      exact hst h
    have hPld0 : (pushQualityHistory r4.1).lossDuration = 0 := by
      rw [hp_ld, hr4', h3ld, h2ld]
      split_ifs with hlv
      · rfl
      · refine hl (fun hsl => hlv ⟨hsl, hst⟩)
    refine ⟨?_, Or.inl ⟨?_, ?_⟩, fun _ => hPld0, fun _ => hPld0⟩
    · show (pushQualityHistory r4.1).recoveryAttempts =
        (if (r2.2 ++ r4.2).any isRecoveredEvent then 0
         else s.recoveryAttempts + ((r2.2 ++ r4.2).filter isAttemptEvent).length)
      rw [hp_ra, hr4', List.any_append, h2rec, List.filter_append, h2fa]
      show s3.recoveryAttempts = _
      rw [h3ra, h2ra]
      by_cases hlv : s.state = TrackState.lost
      · rw [if_pos ⟨hlv, hst⟩, decide_eq_true ⟨hlv, hst⟩]
        rfl
      · rw [if_neg (fun h => hlv h.1), decide_eq_false (fun h => hlv h.1)]
        simp [isAttemptEvent]
    · show (r2.2 ++ r4.2).filter isAttemptEvent = []
      rw [hr4', List.filter_append, h2fa]; rfl
    · show (pushQualityHistory r4.1).lastRecoveryTime = s.lastRecoveryTime
      rw [hp_lrt, hr4', h3lrt, h2lrt]

/-- Every operation preserves the sanity invariant. -/
theorem monitorSane_step (hyp3 : ℚ → ℚ → ℚ → ℚ) (s : MonitorState)
    (op : MonitorOp) (h : monitorSane s) :
    monitorSane (monitorStep hyp3 s op).1 := by
  obtain ⟨hcfg, hj, hl, hsi⟩ := h
  cases op with
  | update d t =>
    obtain ⟨hA, hF, hD, hE, hS1, hS2⟩ := monitorUpdate_main hyp3 s d t hcfg hj hl hsi
    refine ⟨?_, hS1, hS2, ?_⟩
    · rw [show (monitorStep hyp3 s (MonitorOp.update d t)).1 =
        (monitorUpdate hyp3 s d t).1 from rfl, monitorUpdate_config, hcfg]
    · intro t0 hx
      rw [show (monitorStep hyp3 s (MonitorOp.update d t)).1 =
        (monitorUpdate hyp3 s d t).1 from rfl] at hx ⊢
      rw [hF] at hx
      rw [hA]
      by_cases h1 : stateForQuality s.config (postQuality hyp3 s d) = TrackState.lost ∧
          s.state ≠ TrackState.lost
      · exact h1.1
      · rw [if_neg h1] at hx
        by_cases h2 : s.state = TrackState.lost ∧
            stateForQuality s.config (postQuality hyp3 s d) ≠ TrackState.lost
        · rw [if_pos h2] at hx
          exact Option.noConfusion hx
        · rw [if_neg h2] at hx
          have hsl := hsi t0 hx
          by_contra hne
          exact h2 ⟨hsl, hne⟩
  | recoveryComplete b =>
    obtain ⟨hc, hstt, hlrt, hra, hls, hld⟩ := recoveryCompleteM_char s b
    have hid : (monitorStep hyp3 s (MonitorOp.recoveryComplete b)).1 =
        recoveryCompleteM s b := rfl
    rw [hid]
    cases b with
    | true =>
      refine ⟨by rw [hc, hcfg], fun _ => by rw [hld]; rfl, fun _ => by rw [hld]; rfl,
        fun t0 hx => ?_⟩
      rw [hls] at hx
      exact Option.noConfusion hx
    | false =>
      refine ⟨by rw [hc, hcfg], fun hx => ?_, fun hx => ?_, fun t0 hx => ?_⟩
      · rw [hls] at hx
        rw [hld]
        exact hj hx
      · rw [hstt] at hx
        rw [hld]
        exact hl hx
      · rw [hls] at hx
        rw [hstt]
        exact hsi t0 hx

/-- Whole call sequences preserve the sanity invariant. -/
theorem monitorSane_run (hyp3 : ℚ → ℚ → ℚ → ℚ) :
    ∀ (ops : List MonitorOp) (s : MonitorState), monitorSane s →
      monitorSane (monitorRun hyp3 s ops)
  | [], _, h => h
  | op :: ops, s, h =>
    monitorSane_run hyp3 ops (monitorStep hyp3 s op).1 (monitorSane_step hyp3 s op h)

/-- Cooldown chain: prefixing the last recovery stamp, the attempt
timestamps of any sane execution are spaced by at least 2000 ms. -/
theorem attemptTimes_chain (hyp3 : ℚ → ℚ → ℚ → ℚ) :
    ∀ (ops : List MonitorOp) (s : MonitorState), monitorSane s →
      List.Chain' (fun t1 t2 => t1 + 2000 ≤ t2)
        (s.lastRecoveryTime :: attemptTimes hyp3 s ops) := by
  intro ops
  induction ops with
  | nil => intro s _; exact List.chain'_singleton _
  | cons op ops ih =>
    intro s hsane
    have hsane' := monitorSane_step hyp3 s op hsane
    have ihs := ih (monitorStep hyp3 s op).1 hsane'
    cases op with
    | update d t =>
      obtain ⟨hcfg, hj, hl, hsi⟩ := hsane
      obtain ⟨hA, hF, hD, hE, hS1, hS2⟩ := monitorUpdate_main hyp3 s d t hcfg hj hl hsi
      have hstep : monitorStep hyp3 s (MonitorOp.update d t) = monitorUpdate hyp3 s d t :=
        rfl
      rcases hE with ⟨hfil, hlrt⟩ | ⟨t0, strat, hfil, hlrt, _, _, _, _, _, hcool⟩
      · simp only [attemptTimes, hstep, hfil, List.map_nil, List.nil_append]
        rw [hstep] at ihs
        rw [hlrt] at ihs
        exact ihs
      · simp only [attemptTimes, hstep, hfil, List.map_cons, List.map_nil,
          List.singleton_append, opTime]
        rw [List.chain'_cons]
        refine ⟨hcool, ?_⟩
        rw [hstep] at ihs
        rw [hlrt] at ihs
        exact ihs
    | recoveryComplete b =>
      have hstep : monitorStep hyp3 s (MonitorOp.recoveryComplete b) =
          (recoveryCompleteM s b, []) := rfl
      simp only [attemptTimes, hstep, List.filter_nil, List.map_nil, List.nil_append]
      rw [hstep] at ihs
      rw [(recoveryCompleteM_char s b).2.2.1] at ihs
      exact ihs

/-- The stored attempt counter tracks the event-derived count of attempts
since the last intervening recovery, and never exceeds the budget of 3. -/
theorem counter_run (hyp3 : ℚ → ℚ → ℚ → ℚ) :
    ∀ (ops : List MonitorOp) (s : MonitorState), monitorSane s →
      (monitorRun hyp3 s ops).recoveryAttempts =
        attemptsSinceRecovery hyp3 s s.recoveryAttempts ops ∧
      (s.recoveryAttempts ≤ 3 →
        attemptsSinceRecovery hyp3 s s.recoveryAttempts ops ≤ 3) := by
  intro ops
  induction ops with
  | nil => intro s _; exact ⟨rfl, fun h => h⟩
  | cons op ops ih =>
    intro s hsane
    have hsane' := monitorSane_step hyp3 s op hsane
    have hkey : (monitorStep hyp3 s op).1.recoveryAttempts =
        (if stepResets op (monitorStep hyp3 s op).2 then 0
         else s.recoveryAttempts +
           ((monitorStep hyp3 s op).2.filter isAttemptEvent).length) ∧
        (s.recoveryAttempts ≤ 3 → (monitorStep hyp3 s op).1.recoveryAttempts ≤ 3) := by
      cases op with
      | update d t =>
        obtain ⟨hcfg, hj, hl, hsi⟩ := hsane
        obtain ⟨hA, hF, hD, hE, hS1, hS2⟩ :=
          monitorUpdate_main hyp3 s d t hcfg hj hl hsi
        have hstep : monitorStep hyp3 s (MonitorOp.update d t) =
            monitorUpdate hyp3 s d t := rfl
        constructor
        · rw [hstep, hD]
          simp only [stepResets, Bool.or_false]
        · intro hb
          rw [hstep, hD]
          rcases hE with ⟨hfil, -⟩ | ⟨t0, strat, hfil, -, -, -, -, -, hlt3, -⟩ <;>
            rw [hfil] <;> simp only [List.length_nil, List.length_singleton] <;>
            split_ifs <;> omega
      | recoveryComplete b =>
        have hstep : monitorStep hyp3 s (MonitorOp.recoveryComplete b) =
            (recoveryCompleteM s b, []) := rfl
        obtain ⟨-, -, -, hra, -, -⟩ := recoveryCompleteM_char s b
        rw [hstep]
        constructor
        · show (recoveryCompleteM s b).recoveryAttempts = _
          rw [hra]
          cases b <;> simp [stepResets]
        · intro hb
          show (recoveryCompleteM s b).recoveryAttempts ≤ 3
          rw [hra]
          cases b <;> simp <;> omega
    obtain ⟨ih1, ih2⟩ := ih (monitorStep hyp3 s op).1 hsane'
    constructor
    · show (monitorRun hyp3 (monitorStep hyp3 s op).1 ops).recoveryAttempts = _
      simp only [attemptsSinceRecovery]
      rw [ih1, hkey.1]
    · intro hb
      simp only [attemptsSinceRecovery]
      rw [← hkey.1]
      exact ih2 (hkey.2 hb)

/-- A stamped loss start after one operation: either this very operation
entered LOST at the stamp time, or the stamp was already there, with the
state LOST on both sides. -/
theorem monitorStep_lossStart (hyp3 : ℚ → ℚ → ℚ → ℚ) (s : MonitorState)
    (op : MonitorOp) (hsane : monitorSane s) :
    ∀ t0, (monitorStep hyp3 s op).1.lossStartTime = some t0 →
      ((∃ d, op = MonitorOp.update d t0) ∧ s.state ≠ TrackState.lost ∧
        (monitorStep hyp3 s op).1.state = TrackState.lost) ∨
      (s.lossStartTime = some t0 ∧ s.state = TrackState.lost ∧
        (monitorStep hyp3 s op).1.state = TrackState.lost) := by
  obtain ⟨hcfg, hj, hl, hsi⟩ := hsane
  cases op with
  | update d t =>
    obtain ⟨hA, hF, hD, hE, hS1, hS2⟩ := monitorUpdate_main hyp3 s d t hcfg hj hl hsi
    have hstep : monitorStep hyp3 s (MonitorOp.update d t) = monitorUpdate hyp3 s d t :=
      rfl
    intro t0 hx
    rw [hstep] at hx ⊢
    rw [hF] at hx
    by_cases h1 : stateForQuality s.config (postQuality hyp3 s d) = TrackState.lost ∧
        s.state ≠ TrackState.lost
    · rw [if_pos h1] at hx
      have ht0 : t = t0 := Option.some.inj hx
      exact Or.inl ⟨⟨d, by rw [ht0]⟩, h1.2, by rw [hA]; exact h1.1⟩
    · rw [if_neg h1] at hx
      by_cases h2 : s.state = TrackState.lost ∧
          stateForQuality s.config (postQuality hyp3 s d) ≠ TrackState.lost
      · rw [if_pos h2] at hx
        exact Option.noConfusion hx
      · rw [if_neg h2] at hx
        have hsl := hsi t0 hx
        have hst' : stateForQuality s.config (postQuality hyp3 s d) =
            TrackState.lost := by
          by_contra hne
          exact h2 ⟨hsl, hne⟩
        exact Or.inr ⟨hx, hsl, by rw [hA]; exact hst'⟩
  | recoveryComplete b =>
    obtain ⟨-, hstt, -, -, hls, -⟩ := recoveryCompleteM_char s b
    have hstep : (monitorStep hyp3 s (MonitorOp.recoveryComplete b)).1 =
        recoveryCompleteM s b := rfl
    intro t0 hx
    rw [hstep] at hx ⊢
    rw [hls] at hx
    cases b with
    | true => exact Option.noConfusion hx
    | false =>
      have hsl := hsi t0 hx
      exact Or.inr ⟨hx, hsl, by rw [hstt]; exact hsl⟩

/-- A stamped `lossStartTime = t0` on a fresh-start execution pins down the
entry into LOST: the trace splits at an `update` call at time `t0`, before
which the state was not LOST and after which it has been LOST throughout. -/
theorem lost_entry (hyp3 : ℚ → ℚ → ℚ → ℚ) (p : List MonitorOp) :
    ∀ t0, (monitorRun hyp3 (initMonitor defaultMonitorConfig) p).lossStartTime =
        some t0 →
      ∃ d0 p1 p2, p = p1 ++ MonitorOp.update d0 t0 :: p2 ∧
        (monitorRun hyp3 (initMonitor defaultMonitorConfig) p1).state ≠
          TrackState.lost ∧
        ∀ k, p1.length < k → k ≤ p.length →
          (monitorRun hyp3 (initMonitor defaultMonitorConfig) (p.take k)).state =
            TrackState.lost := by
  induction p using List.reverseRecOn with
  | nil =>
    intro t0 hx
    exact Option.noConfusion hx
  | append_singleton p op ih =>
    intro t0 hx
    rw [monitorRun_append] at hx
    have hrun1 : monitorRun hyp3
        (monitorRun hyp3 (initMonitor defaultMonitorConfig) p) [op] =
        (monitorStep hyp3 (monitorRun hyp3 (initMonitor defaultMonitorConfig) p) op).1 :=
      rfl
    rw [hrun1] at hx
    have hsane := monitorSane_run hyp3 p (initMonitor defaultMonitorConfig)
      monitorSane_init
    rcases monitorStep_lossStart hyp3 _ op hsane t0 hx with
      ⟨⟨d, hop⟩, hpre, hpost⟩ | ⟨hls, hpre, hpost⟩
    · refine ⟨d, p, [], by rw [hop], hpre, ?_⟩
      intro k hk1 hk2
      have hlen : (p ++ [op]).length = p.length + 1 := by simp
      have hkk : k = p.length + 1 := by rw [hlen] at hk2; omega
      rw [hkk, ← hlen, List.take_length, monitorRun_append, hrun1]
      exact hpost
    · obtain ⟨d0, p1, p2, hdec, hstart, hall⟩ := ih t0 hls
      refine ⟨d0, p1, p2 ++ [op], ?_, hstart, ?_⟩
      · rw [hdec, List.append_assoc, List.cons_append]
      · intro k hk1 hk2
        rw [List.length_append, List.length_singleton] at hk2
        by_cases hkp : k ≤ p.length
        · rw [List.take_append_of_le_length hkp]
          exact hall k hk1 hkp
        · have hkk : k = p.length + 1 := by omega
          have hlen : (p ++ [op]).length = p.length + 1 := by simp
          rw [hkk, ← hlen, List.take_length, monitorRun_append, hrun1]
          exact hpost

/-- Claim C8: on a fresh monitor with the default configuration, recovery
attempts obey all three gates: consecutive attempt timestamps are separated
by at least the 2000 ms cooldown; the stored attempt counter equals the
number of attempts since the last intervening recovery and never exceeds
the budget of 3 (an attempt fires only when strictly fewer than 3 attempts
have happened since the last recovery); and any attempt fires at an
`update` call at a time `t` at least the 500 ms recovery delay after the
stamped LOST-entry time `t0`, the trace having entered LOST by an `update`
at `t0` and stayed LOST at every prefix since. -/
theorem recovery_attempt_gating (hyp3 : ℚ → ℚ → ℚ → ℚ) (ops : List MonitorOp) :
    List.Chain' (fun t1 t2 => t1 + 2000 ≤ t2)
      (attemptTimes hyp3 (initMonitor defaultMonitorConfig) ops) ∧
    attemptsSinceRecovery hyp3 (initMonitor defaultMonitorConfig) 0 ops =
      (monitorRun hyp3 (initMonitor defaultMonitorConfig) ops).recoveryAttempts ∧
    attemptsSinceRecovery hyp3 (initMonitor defaultMonitorConfig) 0 ops ≤ 3 ∧
    ∀ p op rest, ops = p ++ op :: rest →
      (monitorStep hyp3 (monitorRun hyp3 (initMonitor defaultMonitorConfig) p)
          op).2.filter isAttemptEvent ≠ [] →
      attemptsSinceRecovery hyp3 (initMonitor defaultMonitorConfig) 0 p < 3 ∧
      ∃ d t t0, op = MonitorOp.update d t ∧
        (monitorRun hyp3 (initMonitor defaultMonitorConfig) p).lossStartTime =
          some t0 ∧
        t0 + 500 ≤ t ∧
        ∃ d0 p1 p2, p = p1 ++ MonitorOp.update d0 t0 :: p2 ∧
          (monitorRun hyp3 (initMonitor defaultMonitorConfig) p1).state ≠
            TrackState.lost ∧
          ∀ k, p1.length < k → k ≤ p.length →
            (monitorRun hyp3 (initMonitor defaultMonitorConfig) (p.take k)).state =
              TrackState.lost := by
  have hchain := attemptTimes_chain hyp3 ops (initMonitor defaultMonitorConfig)
    monitorSane_init
  have hcnt := counter_run hyp3 ops (initMonitor defaultMonitorConfig)
    monitorSane_init
  refine ⟨hchain.tail, hcnt.1.symm, hcnt.2 (Nat.zero_le 3), ?_⟩
  rintro p op rest rfl hfil
  have hsane := monitorSane_run hyp3 p (initMonitor defaultMonitorConfig)
    monitorSane_init
  cases op with
  | recoveryComplete b => exact absurd rfl hfil
  | update d t =>
    obtain ⟨hcfg, hj, hl, hsi⟩ := hsane
    obtain ⟨hA, hF, hD, hE, hS1, hS2⟩ := monitorUpdate_main hyp3
      (monitorRun hyp3 (initMonitor defaultMonitorConfig) p) d t hcfg hj hl hsi
    have hstep : monitorStep hyp3
        (monitorRun hyp3 (initMonitor defaultMonitorConfig) p)
        (MonitorOp.update d t) =
        monitorUpdate hyp3 (monitorRun hyp3 (initMonitor defaultMonitorConfig) p)
          d t := rfl
    rw [hstep] at hfil
    rcases hE with ⟨hfil0, -⟩ |
      ⟨t0, strat, hfil1, hlrt, hls, hdwell, hlost, hstl, hlt3, hcool⟩
    · exact absurd hfil0 hfil
    · constructor
      · have heq : attemptsSinceRecovery hyp3 (initMonitor defaultMonitorConfig)
            0 p =
            (monitorRun hyp3 (initMonitor defaultMonitorConfig) p).recoveryAttempts :=
          (counter_run hyp3 p (initMonitor defaultMonitorConfig)
            monitorSane_init).1.symm
        rw [heq]
        exact hlt3
      · exact ⟨d, t, t0, rfl, hls, hdwell, lost_entry hyp3 p t0 hls⟩

/-- The metric bank entry after one data-less frame. -/
def w8metric : MetricState := ⟨[0], 0, 0, 0⟩

/-- The monitor state after one data-less `update` at time 1 on a fresh
default monitor: quality 0, state LOST, loss start stamped at 1. -/
def w8s1 : MonitorState :=
  { config := defaultMonitorConfig
    metrics := ⟨w8metric, w8metric, w8metric, w8metric, w8metric, w8metric⟩
    state := TrackState.lost
    previousState := some TrackState.initializing
    overallQuality := 0
    qualityHistory := [0]
    recoveryAttempts := 0
    lastRecoveryTime := 0
    recoveryInProgress := false
    lossStartTime := some 1
    lossDuration := 0
    predictedLoss := false
    frameCount := 1
    lastFrameTime := 1
    fps := 0 }

/-- The witness state after the bookkeeping prefix of the first frame. -/
def w8pre : MonitorState :=
  { config := defaultMonitorConfig
    metrics := ⟨w8metric, w8metric, w8metric, w8metric, w8metric, w8metric⟩
    state := TrackState.initializing
    previousState := Option.none
    overallQuality := 0
    qualityHistory := []
    recoveryAttempts := 0
    lastRecoveryTime := 0
    recoveryInProgress := false
    lossStartTime := Option.none
    lossDuration := 0
    predictedLoss := false
    frameCount := 1
    lastFrameTime := 1
    fps := 0 }

/-- The witness state after the first frame's state transition. -/
def w8post : MonitorState :=
  { config := defaultMonitorConfig
    metrics := ⟨w8metric, w8metric, w8metric, w8metric, w8metric, w8metric⟩
    state := TrackState.lost
    previousState := some TrackState.initializing
    overallQuality := 0
    qualityHistory := []
    recoveryAttempts := 0
    lastRecoveryTime := 0
    recoveryInProgress := false
    lossStartTime := some 1
    lossDuration := 0
    predictedLoss := false
    frameCount := 1
    lastFrameTime := 1
    fps := 0 }

/-- INITIALIZING is not LOST. -/
theorem w8neq1 : (TrackState.initializing = TrackState.lost) = False := by simp

/-- REDUCE_QUALITY is not the NONE strategy. -/
theorem w8neq2 : (RecoveryStrategy.reduceQuality = RecoveryStrategy.none) = False := by
  simp

/-- Bookkeeping prefix of the first witness frame. -/
theorem w8hpre : preUpdate (fun _ _ _ => 0) (initMonitor defaultMonitorConfig)
    Option.none 1 = w8pre := by
  norm_num [preUpdate, initMonitor, w8pre, w8metric, updateMetrics, metricUpdate,
    metricHistorySize, calculateOverallQuality, totalMetricWeight, initMetrics,
    initMetric, defaultMonitorConfig, MonitorState.mk.injEq, Metrics.mk.injEq,
    MetricState.mk.injEq]

/-- State transition of the first witness frame: into LOST, stamping the
loss start at time 1. -/
theorem w8hupd : updateStateM w8pre 1 =
    (w8post, [MonitorEvent.trackingLost,
      MonitorEvent.stateChange TrackState.initializing TrackState.lost,
      MonitorEvent.qualityChange 0]) := by
  norm_num [updateStateM, stateForQuality, handleStateChange, w8pre, w8post,
    w8metric, defaultMonitorConfig, w8neq1, MonitorState.mk.injEq,
    Metrics.mk.injEq, MetricState.mk.injEq]

/-- Concrete evaluation of the first witness frame. -/
theorem w8run1 : monitorRun (fun _ _ _ => 0) (initMonitor defaultMonitorConfig)
    [MonitorOp.update Option.none 1] = w8s1 := by
  have hrun : monitorRun (fun _ _ _ => 0) (initMonitor defaultMonitorConfig)
      [MonitorOp.update Option.none 1] =
      (monitorUpdate (fun _ _ _ => 0) (initMonitor defaultMonitorConfig)
        Option.none 1).1 := rfl
  rw [hrun]
  simp only [monitorUpdate, w8hpre, w8hupd]
  norm_num [w8post, w8metric, defaultMonitorConfig, predictLossM,
    attemptRecoveryM, jsTruthyTime, determineRecoveryStrategy,
    pushQualityHistory, w8s1, w8neq1, w8neq2, MonitorState.mk.injEq,
    Metrics.mk.injEq, MetricState.mk.injEq]

/-- The metric bank entry after two data-less frames. -/
def w8metric2 : MetricState := ⟨[0, 0], 0, 0, 0⟩

/-- The witness state after the bookkeeping prefix of the second frame. -/
def w8pre2 : MonitorState :=
  { config := defaultMonitorConfig
    metrics := ⟨w8metric2, w8metric2, w8metric2, w8metric2, w8metric2, w8metric2⟩
    state := TrackState.lost
    previousState := some TrackState.initializing
    overallQuality := 0
    qualityHistory := [0]
    recoveryAttempts := 0
    lastRecoveryTime := 0
    recoveryInProgress := false
    lossStartTime := some 1
    lossDuration := 0
    predictedLoss := false
    frameCount := 2
    lastFrameTime := 2500
    fps := 1000 / 2499 }

/-- Bookkeeping prefix of the second witness frame. -/
theorem w8hpre2 : preUpdate (fun _ _ _ => 0) w8s1 Option.none 2500 = w8pre2 := by
  norm_num [preUpdate, w8s1, w8pre2, w8metric, w8metric2, updateMetrics,
    metricUpdate, metricHistorySize, calculateOverallQuality, totalMetricWeight,
    defaultMonitorConfig, MonitorState.mk.injEq, Metrics.mk.injEq,
    MetricState.mk.injEq]

/-- The second witness frame stays in LOST without firing state callbacks. -/
theorem w8hupd2 : updateStateM w8pre2 2500 = (w8pre2, []) := by
  norm_num [updateStateM, stateForQuality, w8pre2, w8metric2,
    defaultMonitorConfig, MonitorState.mk.injEq, Metrics.mk.injEq,
    MetricState.mk.injEq]

/-- Concrete evaluation of the second witness frame: a recovery attempt
fires at time 2500. -/
theorem w8step2 : (monitorStep (fun _ _ _ => 0) w8s1
    (MonitorOp.update Option.none 2500)).2 =
    [MonitorEvent.recoveryAttempt 1 RecoveryStrategy.reduceQuality] := by
  have hstep : (monitorStep (fun _ _ _ => 0) w8s1
      (MonitorOp.update Option.none 2500)).2 =
      (monitorUpdate (fun _ _ _ => 0) w8s1 Option.none 2500).2 := rfl
  rw [hstep]
  simp only [monitorUpdate, w8hpre2, w8hupd2]
  norm_num [w8pre2, w8metric2, defaultMonitorConfig, predictLossM,
    attemptRecoveryM, jsTruthyTime, determineRecoveryStrategy, Option.getD,
    w8neq1, w8neq2]

/-- Witness for C8: two concrete data-less frames at times 1 and 2500 — the
first enters LOST and stamps `lossStartTime = 1`, the second fires a
recovery attempt; the claim instantiated there yields the cooldown chain,
the attempt budget, and the 500 ms dwell bound for the fired attempt. -/
theorem recovery_attempt_gating_witness :
    List.Chain' (fun t1 t2 => t1 + 2000 ≤ t2)
      (attemptTimes (fun _ _ _ => 0) (initMonitor defaultMonitorConfig)
        [MonitorOp.update Option.none 1, MonitorOp.update Option.none 2500]) ∧
    attemptsSinceRecovery (fun _ _ _ => 0) (initMonitor defaultMonitorConfig) 0
      [MonitorOp.update Option.none 1, MonitorOp.update Option.none 2500] ≤ 3 ∧
    attemptsSinceRecovery (fun _ _ _ => 0) (initMonitor defaultMonitorConfig) 0
      [MonitorOp.update Option.none 1] < 3 ∧
    (monitorRun (fun _ _ _ => 0) (initMonitor defaultMonitorConfig)
      [MonitorOp.update Option.none 1]).lossStartTime = some 1 ∧
    ((1 : ℚ) + 500 ≤ 2500) := by
  obtain ⟨hchain, -, hle, hd⟩ := recovery_attempt_gating (fun _ _ _ => 0)
    [MonitorOp.update Option.none 1, MonitorOp.update Option.none 2500]
  have hls1 : (monitorRun (fun _ _ _ => 0) (initMonitor defaultMonitorConfig)
      [MonitorOp.update Option.none 1]).lossStartTime = some 1 := by
    rw [w8run1]
    rfl
  have hfil : (monitorStep (fun _ _ _ => 0) (monitorRun (fun _ _ _ => 0)
      (initMonitor defaultMonitorConfig) [MonitorOp.update Option.none 1])
      (MonitorOp.update Option.none 2500)).2.filter isAttemptEvent ≠ [] := by
    rw [w8run1, w8step2]
    decide
  obtain ⟨hlt, d, t, t0, hop, hls, hdw, -⟩ :=
    hd [MonitorOp.update Option.none 1] (MonitorOp.update Option.none 2500) []
      rfl hfil
  injection hop with h1 h2
  subst h2
  rw [hls1] at hls
  have ht0 : t0 = 1 := (Option.some.inj hls).symm
  rw [ht0] at hdw
  exact ⟨hchain, hle, hlt, hls1, hdw⟩

end QualityMonitor

end Born
